import Mathlib

/-!
Verification development for the Feishu Bitable task synchronization engine
(`fetch_tasks.py` and `create_tasks.py`).

Python runtime values that can appear as Bitable cell contents are embedded
as the closed variant `Value` below.  Python exceptions are modelled by
`Option`/`Except` results: a function that can raise an uncaught exception
returns `none` / `.error` on the raising inputs.  Machine integers are
modelled as `Int` (Python integers are unbounded).  Python `float` cell
values are modelled as exact decimal numbers `m / 10^e`; IEEE-754 rounding
and exponent-notation rendering of extreme magnitudes are not modelled.
-/

/-- A Python runtime value, as the cell normalizer can receive it
(spec §9: closed tagged-variant representation).
`vfloat m e` denotes the float with exact decimal value `m / 10^e`.
`vbytes` holds the raw byte values (0..255).
`vother r` stands for any object of another class whose `str()` is `r`. -/
inductive Value where
  | vnull : Value
  | vbool : Bool → Value
  | vint : Int → Value
  | vfloat : Int → Nat → Value
  | vstr : String → Value
  | vbytes : List Nat → Value
  | vlist : List Value → Value
  | vobj : List (String × Value) → Value
  | vother : String → Value

/-- Characters stripped by Python `str.strip()` (ASCII whitespace;
Unicode space characters are not modelled). -/
def pyWs (c : Char) : Bool :=
  c = ' ' || c = '\t' || c = '\n' || c = '\r' || c = '\x0b' || c = '\x0c'

def pyStripChars (cs : List Char) : List Char :=
  ((cs.dropWhile pyWs).reverse.dropWhile pyWs).reverse

/-- Python `str.strip()`. -/
def pyStrip (s : String) : String := String.mk (pyStripChars s.data)

/-- Is `b` a UTF-8 continuation byte (`0x80..0xBF`)? -/
def contByte (b : Nat) : Bool := 128 ≤ b && b < 192

/-- Strict UTF-8 decoding of a byte sequence, as Python `bytes.decode("utf-8")`:
rejects stray continuation bytes, overlong encodings, surrogates and
code points above `0x10FFFF`.  `none` models `UnicodeDecodeError`. -/
def utf8Decode : List Nat → Option (List Char)
  | [] => some []
  | b :: rest =>
    if b < 128 then
      (utf8Decode rest).map (fun cs => Char.ofNat b :: cs)
    else if b < 194 then none
    else if b < 224 then
      match rest with
      | b1 :: rest2 =>
        if contByte b1 then
          (utf8Decode rest2).map (fun cs => Char.ofNat ((b - 192) * 64 + (b1 - 128)) :: cs)
        else none
      | [] => none
    else if b < 240 then
      match rest with
      | b1 :: b2 :: rest2 =>
        if contByte b1 && contByte b2 then
          let cp := (b - 224) * 4096 + (b1 - 128) * 64 + (b2 - 128)
          if cp < 2048 then none
          else if 55296 ≤ cp && cp < 57344 then none
          else (utf8Decode rest2).map (fun cs => Char.ofNat cp :: cs)
        else none
      | _ => none
    else if b < 245 then
      match rest with
      | b1 :: b2 :: b3 :: rest2 =>
        if contByte b1 && contByte b2 && contByte b3 then
          let cp := (b - 240) * 262144 + (b1 - 128) * 4096 + (b2 - 128) * 64 + (b3 - 128)
          if cp < 65536 then none
          else if 1114111 < cp then none
          else (utf8Decode rest2).map (fun cs => Char.ofNat cp :: cs)
        else none
      | _ => none
    else none

/-- Python `bytes.decode("utf-8")`; `none` models `UnicodeDecodeError`. -/
def utf8DecodeStr (bs : List Nat) : Option String := (utf8Decode bs).map String.mk

/-- Is the modelled float `m / 10^e` mathematically integral
(Python `float.is_integer()`)? -/
def isIntegerFloat (m : Int) (e : Nat) : Bool := m % ((10 : Int) ^ e) == 0

/-- Drop factors of ten shared by mantissa and scale, to render the float
canonically (Python `str(float)` prints the shortest decimal form). -/
def reduceFloat : Int → Nat → Int × Nat
  | m, 0 => (m, 0)
  | m, e + 1 => if m % 10 == 0 then reduceFloat (m / 10) e else (m, e + 1)

/-- Left-pad a numeral with zeros to `len` digits. -/
def padZeros (s : String) (len : Nat) : String :=
  if s.length < len then String.mk (List.replicate (len - s.length) '0') ++ s else s

/-- Python `str()` of the modelled float `m / 10^e`, following
`normalize_bitable_value`: integral floats print as their integer part
(fetch_tasks.py line 265-266), others as a plain decimal.
Exponent notation for extreme magnitudes is not modelled. -/
def floatStr (m : Int) (e : Nat) : String :=
  if isIntegerFloat m e then toString (m / ((10 : Int) ^ e))
  else
    let (m', e') := reduceFloat m e
    let a := m'.natAbs
    let ip := a / 10 ^ e'
    let fp := a % 10 ^ e'
    (if m' < 0 then "-" else "") ++ toString ip ++ "." ++ padZeros (toString fp) e'

/-- First value bound to key `k` in the association list `o` (Python dicts
have unique keys; we model `dict.get(k, d)` as first-match lookup). -/
def pyGetD (o : List (String × Value)) (k : String) (d : Value) : Value :=
  match o with
  | [] => d
  | (k', v) :: rest => if k' = k then v else pyGetD rest k d

/-- Python `k in obj`. -/
def hasKey (o : List (String × Value)) (k : String) : Bool :=
  match o with
  | [] => false
  | (k', _) :: rest => k' = k || hasKey rest k

theorem pyGetD_sizeOf_le (o : List (String × Value)) (k : String) :
    sizeOf (pyGetD o k .vnull) ≤ sizeOf o := by
  induction o with
  | nil => simp [pyGetD]
  | cons h t ih =>
    obtain ⟨k', v⟩ := h
    simp only [pyGetD]
    split
    · simp; omega
    · simp; omega

/-- `is_rich_text_array` (fetch_tasks.py lines 317-321): true when some
element is a dict carrying a `"text"` key. -/
def is_rich_text_array : List Value → Bool
  | [] => false
  | .vobj o :: rest => if hasKey o "text" then true else is_rich_text_array rest
  | _ :: rest => is_rich_text_array rest

/-- Continue with `b` when `a` produced an empty string; propagate a raised
exception (`none`) or a non-empty result from `a`.  Mirrors the Python
`if text: return text` cascades of `normalize_bitable_object`. -/
def orElseNE (a : Option String) (b : Unit → Option String) : Option String :=
  match a with
  | none => none
  | some s => if s = "" then b () else some s

/-- JSON string quoting (escaping of quotes, backslashes and the common
control characters; `ensure_ascii=False` keeps other characters verbatim). -/
def jsonQuoteChar (c : Char) : String :=
  if c = '"' then "\\\""
  else if c = '\\' then "\\\\"
  else if c = '\n' then "\\n"
  else if c = '\t' then "\\t"
  else if c = '\r' then "\\r"
  else String.singleton c

def jsonQuote (s : String) : String :=
  "\"" ++ String.join (s.data.map jsonQuoteChar) ++ "\""

mutual

/-- `json.dumps(obj, ensure_ascii=False)` on the embedded values, with the
default separators.  `none` models a `TypeError` for values `json` cannot
serialize (bytes and foreign objects); the caller's `except` turns that
into `""`. -/
def pyJsonDumps : Value → Option String
  | .vnull => some "null"
  | .vbool b => some (if b then "true" else "false")
  | .vint n => some (toString n)
  | .vfloat m e => some (floatStr m e)
  | .vstr s => some (jsonQuote s)
  | .vbytes _ => none
  | .vother _ => none
  | .vlist items =>
    match dumpsEach items with
    | none => none
    | some parts => some ("[" ++ String.intercalate ", " parts ++ "]")
  | .vobj o =>
    match dumpsEntries o with
    | none => none
    | some parts => some ("\x7b" ++ String.intercalate ", " parts ++ "\x7d")
termination_by v => sizeOf v * 4

def dumpsEach : List Value → Option (List String)
  | [] => some []
  | v :: rest =>
    match pyJsonDumps v with
    | none => none
    | some s => (dumpsEach rest).map (fun ss => s :: ss)
termination_by l => sizeOf l * 4 + 1

def dumpsEntries : List (String × Value) → Option (List String)
  | [] => some []
  | (k, v) :: rest =>
    match pyJsonDumps v with
    | none => none
    | some s => (dumpsEntries rest).map (fun ss => (jsonQuote k ++ ": " ++ s) :: ss)
termination_by l => sizeOf l * 4 + 1

end

mutual

/-- `normalize_bitable_value` (fetch_tasks.py lines 255-274).
`none` models an uncaught exception escaping the function.
Note on the `vbool` case: the source tests `isinstance(value, int)` before
`isinstance(value, bool)`, and Python `bool` is a subclass of `int`, so a
boolean is routed into the integer branch and printed by `str()` as
`"True"`/`"False"`; the later `"true"/"false"` branch (lines 268-269) is
unreachable. -/
def normalize_bitable_value : Value → Option String
  | .vnull => some ""
  | .vstr s => some (pyStrip s)
  | .vbytes bs => (utf8DecodeStr bs).map pyStrip
  | .vbool b => some (if b then "True" else "False")
  | .vint n => some (toString n)
  | .vfloat m e => some (floatStr m e)
  | .vlist items => normalize_bitable_array items
  | .vobj o => normalize_bitable_object o
  | .vother r => some (pyStrip r)
termination_by v => sizeOf v * 4
decreasing_by
all_goals simp_wf
all_goals
  first
    | omega
    | exact Nat.lt_of_le_of_lt (Nat.mul_le_mul_right 4 (pyGetD_sizeOf_le _ _)) (by omega)

/-- `normalize_bitable_array` (fetch_tasks.py lines 277-284). -/
def normalize_bitable_array (items : List Value) : Option String :=
  if items.isEmpty then some ""
  else if is_rich_text_array items then join_rich_text items
  else
    match normalizeEach items with
    | none => none
    | some parts =>
      let kept := parts.filter (fun p => p ≠ "")
      some (if kept.isEmpty then "" else String.intercalate "," kept)
termination_by sizeOf items * 4 + 3
decreasing_by
all_goals simp_wf
all_goals
  first
    | omega
    | exact Nat.lt_of_le_of_lt (Nat.mul_le_mul_right 4 (pyGetD_sizeOf_le _ _)) (by omega)

/-- The list comprehension `[normalize_bitable_value(item) for item in items]`
(fetch_tasks.py line 282); evaluation is in order and the first exception
propagates. -/
def normalizeEach : List Value → Option (List String)
  | [] => some []
  | v :: rest =>
    match normalize_bitable_value v with
    | none => none
    | some s => (normalizeEach rest).map (fun ss => s :: ss)
termination_by l => sizeOf l * 4 + 1
decreasing_by
all_goals simp_wf
all_goals
  first
    | omega
    | exact Nat.lt_of_le_of_lt (Nat.mul_le_mul_right 4 (pyGetD_sizeOf_le _ _)) (by omega)

/-- `join_rich_text` (fetch_tasks.py lines 324-340). -/
def join_rich_text (items : List Value) : Option String :=
  match joinRichParts items with
  | none => none
  | some parts => some (if parts.isEmpty then "" else String.intercalate " " parts)
termination_by sizeOf items * 4 + 2
decreasing_by
all_goals simp_wf
all_goals
  first
    | omega
    | exact Nat.lt_of_le_of_lt (Nat.mul_le_mul_right 4 (pyGetD_sizeOf_le _ _)) (by omega)

/-- The accumulation loop of `join_rich_text`: for a dict element, take its
non-blank `"text"` string, falling back to the normalization of its
`"value"`; for any other element, its own normalization; keep the non-empty
results in order. -/
def joinRichParts : List Value → Option (List String)
  | [] => some []
  | .vobj o :: rest =>
    match pyGetD o "text" .vnull with
    | .vstr s =>
      if pyStrip s ≠ "" then (joinRichParts rest).map (fun ps => pyStrip s :: ps)
      else
        match normalize_bitable_value (pyGetD o "value" .vnull) with
        | none => none
        | some nested => (joinRichParts rest).map (fun ps => if nested ≠ "" then nested :: ps else ps)
    | _ =>
      match normalize_bitable_value (pyGetD o "value" .vnull) with
      | none => none
      | some nested => (joinRichParts rest).map (fun ps => if nested ≠ "" then nested :: ps else ps)
  | v :: rest =>
    match normalize_bitable_value v with
    | none => none
    | some t => (joinRichParts rest).map (fun ps => if t ≠ "" then t :: ps else ps)
termination_by l => sizeOf l * 4 + 1
decreasing_by
all_goals simp_wf
all_goals
  first
    | omega
    | exact Nat.lt_of_le_of_lt (Nat.mul_le_mul_right 4 (pyGetD_sizeOf_le _ _)) (by omega)

/-- `normalize_bitable_object` (fetch_tasks.py lines 287-314).  The key
cascades are unrolled in the source's order; a key that is present is
normalized (and its exception propagates), an absent key is skipped.
The final fallback serializes the whole object to JSON, or returns `""`
when serialization raises (`except` branch, line 313-314). -/
def normalize_bitable_object (o : List (String × Value)) : Option String :=
  if o.isEmpty then some ""
  else
    orElseNE (if hasKey o "value" then normalize_bitable_value (pyGetD o "value" .vnull) else some "") (fun _ =>
    orElseNE (if hasKey o "values" then normalize_bitable_value (pyGetD o "values" .vnull) else some "") (fun _ =>
    orElseNE (if hasKey o "elements" then normalize_bitable_value (pyGetD o "elements" .vnull) else some "") (fun _ =>
    orElseNE (if hasKey o "content" then normalize_bitable_value (pyGetD o "content" .vnull) else some "") (fun _ =>
    orElseNE (some (match pyGetD o "text" .vnull with
                    | .vstr s => pyStrip s
                    | _ => "")) (fun _ =>
    orElseNE (normalize_bitable_value (pyGetD o "link" .vnull)) (fun _ =>
    orElseNE (normalize_bitable_value (pyGetD o "name" .vnull)) (fun _ =>
    orElseNE (normalize_bitable_value (pyGetD o "en_name" .vnull)) (fun _ =>
    orElseNE (normalize_bitable_value (pyGetD o "email" .vnull)) (fun _ =>
    orElseNE (normalize_bitable_value (pyGetD o "id" .vnull)) (fun _ =>
    orElseNE (normalize_bitable_value (pyGetD o "user_id" .vnull)) (fun _ =>
    orElseNE (normalize_bitable_value (pyGetD o "url" .vnull)) (fun _ =>
    orElseNE (normalize_bitable_value (pyGetD o "tmp_url" .vnull)) (fun _ =>
    orElseNE (normalize_bitable_value (pyGetD o "file_token" .vnull)) (fun _ =>
    orElseNE (if hasKey o "address" || hasKey o "location" || hasKey o "pname" ||
                 hasKey o "cityname" || hasKey o "adname" then
                match normalize_bitable_value (pyGetD o "location" .vnull) with
                | none => none
                | some p1 =>
                  match normalize_bitable_value (pyGetD o "pname" .vnull) with
                  | none => none
                  | some p2 =>
                    match normalize_bitable_value (pyGetD o "cityname" .vnull) with
                    | none => none
                    | some p3 =>
                      match normalize_bitable_value (pyGetD o "adname" .vnull) with
                      | none => none
                      | some p4 =>
                        let kept := [p1, p2, p3, p4].filter (fun p => p ≠ "")
                        some (if kept.isEmpty then "" else String.intercalate "," kept)
              else some "") (fun _ =>
    some ((pyJsonDumps (.vobj o)).getD ""))))))))))))))))
termination_by sizeOf o * 4 + 2
decreasing_by
all_goals simp_wf
all_goals
  first
    | omega
    | exact Nat.lt_of_le_of_lt (Nat.mul_le_mul_right 4 (pyGetD_sizeOf_le _ _)) (by omega)

end

/-- ASCII lower-casing, as `str.lower()` acts on the float literals we model. -/
def asciiLower (c : Char) : Char :=
  if 'A' ≤ c && c ≤ 'Z' then Char.ofNat (c.toNat + 32) else c

/-- Outcome of Python `int(float(raw))` on a string:
`finite i` — both conversions succeed with result `i` (truncation toward zero);
`infinite` — `float()` yields an infinity, so `int()` raises `OverflowError`;
`nanv` — `float()` yields a NaN, so `int()` raises `ValueError`;
`invalid` — `float()` itself raises `ValueError`. -/
inductive PyFloatParse where
  | finite : Int → PyFloatParse
  | infinite : PyFloatParse
  | nanv : PyFloatParse
  | invalid : PyFloatParse

def digitVal (c : Char) : Option Nat :=
  if '0' ≤ c && c ≤ '9' then some (c.toNat - 48) else none

/-- Consume leading decimal digits, returning their value, their count and
the remaining characters. -/
def takeDigits : List Char → Nat → Nat → Nat × Nat × List Char
  | [], acc, n => (acc, n, [])
  | c :: rest, acc, n =>
    match digitVal c with
    | some d => takeDigits rest (acc * 10 + d) (n + 1)
    | none => (acc, n, c :: rest)

def numDigits (n : Nat) : Nat := (toString n).length

/-- Classify the exact decimal `mant * 10 ^ (exp10 - fracLen)` as Python
`int(float(...))` would: values at or above `1e309` overflow the IEEE double
range and become infinite (the borderline below `1e309` is approximated);
otherwise the value is truncated toward zero exactly. -/
def finishFloat (mant : Nat) (fracLen : Nat) (exp10 : Int) : PyFloatParse :=
  let scale : Int := exp10 - (fracLen : Int)
  if mant = 0 then .finite 0
  else if (numDigits mant : Int) + scale > 309 then .infinite
  else if 0 ≤ scale then .finite ((mant : Int) * (10 : Int) ^ scale.toNat)
  else .finite ((mant : Int) / (10 : Int) ^ (-scale).toNat)

/-- Parse an optional exponent suffix (`e`/`E` with optional sign). -/
def parseExpPart (mant : Nat) (fracLen : Nat) (rest : List Char) : PyFloatParse :=
  match rest with
  | [] => finishFloat mant fracLen 0
  | 'e' :: rest2 =>
    let signedRest :=
      match rest2 with
      | '+' :: r => (false, r)
      | '-' :: r => (true, r)
      | r => (false, r)
    let (ev, en, rest4) := takeDigits signedRest.2 0 0
    if en = 0 || rest4 ≠ [] then .invalid
    else finishFloat mant fracLen (if signedRest.1 then -(ev : Int) else (ev : Int))
  | _ => .invalid

/-- Parse an unsigned Python float literal (already lower-cased):
`inf`/`infinity`/`nan` keywords, or digits with optional fraction and
exponent.  Underscore digit separators are not modelled. -/
def parseUnsignedFloat (cs : List Char) : PyFloatParse :=
  if cs = ['i', 'n', 'f'] || cs = ['i', 'n', 'f', 'i', 'n', 'i', 't', 'y'] then .infinite
  else if cs = ['n', 'a', 'n'] then .nanv
  else
    let (ip, ipn, rest) := takeDigits cs 0 0
    match rest with
    | '.' :: rest2 =>
      let (fp, fpn, rest3) := takeDigits rest2 0 0
      if ipn = 0 && fpn = 0 then .invalid
      else parseExpPart (ip * 10 ^ fpn + fp) fpn rest3
    | _ => if ipn = 0 then .invalid else parseExpPart ip 0 rest

/-- Python `int(float(s))`, the integer-coercion step of `field_int`
(fetch_tasks.py line 354).  `float()` strips surrounding whitespace and is
case-insensitive on the keywords; `int()` truncates toward zero. -/
def pyParseFloatTrunc (s : String) : PyFloatParse :=
  let cs := (pyStripChars s.data).map asciiLower
  match cs with
  | '+' :: rest => parseUnsignedFloat rest
  | '-' :: rest =>
    match parseUnsignedFloat rest with
    | .finite i => .finite (-i)
    | other => other
  | _ => parseUnsignedFloat cs

namespace FetchTasks

def DEFAULT_PAGE_SIZE : Int := 200
def MAX_PAGE_SIZE : Int := 500

/-- `clamp_page_size` (fetch_tasks.py lines 69-74). -/
def clamp_page_size (size : Int) : Int :=
  if size ≤ 0 then DEFAULT_PAGE_SIZE
  else if size > MAX_PAGE_SIZE then MAX_PAGE_SIZE
  else size

/-- One equality condition of a search filter. -/
structure Condition where
  field_name : String
  op : String
  value : List String
deriving DecidableEq, Repr

/-- A search filter object (`{"conjunction": ..., "conditions": [...]}`). -/
structure Filter where
  conjunction : String
  conditions : List Condition
deriving DecidableEq, Repr

/-- String-to-string dict lookup with default (`fields.get(field_key, "")`). -/
def lookupD (m : List (String × String)) (k : String) (d : String) : String :=
  match m with
  | [] => d
  | (k', v) :: rest => if k' = k then v else lookupD rest k d

/-- The inner `add` closure of `build_filter` (fetch_tasks.py lines 171-175):
append an `is` condition when both the mapped physical name and the trimmed
value are non-empty. -/
def addCond (fields : List (String × String)) (field_key : String) (value : String)
    (conds : List Condition) : List Condition :=
  let name := pyStrip (lookupD fields field_key "")
  let v := pyStrip value
  if name ≠ "" ∧ v ≠ "" then conds ++ [⟨name, "is", [v]⟩] else conds

/-- `build_filter` (fetch_tasks.py lines 168-185).  The Date condition is
only attempted when the preset is non-empty and differs from the literal
`"Any"` (line 180). -/
def build_filter (fields : List (String × String))
    (app scene status date_preset : String) : Option Filter :=
  let conds := addCond fields "App" app []
  let conds := addCond fields "Scene" scene conds
  let conds := addCond fields "Status" status conds
  let conds :=
    if date_preset ≠ "" ∧ date_preset ≠ "Any" then addCond fields "Date" date_preset conds
    else conds
  if conds.isEmpty then none else some ⟨"and", conds⟩

/-- The post-extraction shape of one `records/search` response:
`code`/`msg` from the envelope, and `items`, `has_more`, `page_token` from
`data` (absent fields already defaulted, as by lines 232-238). -/
structure SearchResp (α : Type) where
  code : Int
  msg : String
  items : List α
  has_more : Bool
  page_token : String

/-- `PageInfo` (fetch_tasks.py lines 58-62). -/
structure PageInfo where
  has_more : Bool
  next_page_token : String
  pages : Nat
deriving DecidableEq, Repr

/-- The `PageInfo` built at line 248: `has_more=bool(page_token)`. -/
def mkPageInfo (token : String) (pages : Nat) : PageInfo :=
  ⟨token != "", token, pages⟩

/-- The `while True` pagination loop of `fetch_records` (lines 207-246).
The remote store is modelled as a function from (call index, page size) to
a response: the cursor is an opaque continuation marker, so successive
calls are equivalently keyed by their index; URL and request-body assembly
have no effect on the pagination protocol and are not modelled.
`fuel` bounds the number of iterations so the recursion is total; `none`
means the fuel ran out before the loop stopped, `some (.error e)` models the
`RuntimeError` raised on a non-zero response code (lines 227-230). -/
def fetchLoop (store : Nat → Int → SearchResp α) (limit max_pages page_size : Int) :
    Nat → List α → Nat → Option (Except String (List α × PageInfo))
  | 0, _, _ => none
  | fuel + 1, items, pages =>
    let resp := store pages page_size
    if resp.code ≠ 0 then
      some (.error ("search records failed: code=" ++ toString resp.code ++ " msg=" ++ resp.msg))
    else
      let items' := items ++ resp.items
      let pages' := pages + 1
      let token := pyStrip resp.page_token
      if limit > 0 ∧ (items'.length : Int) ≥ limit then
        some (.ok (items'.take limit.toNat, mkPageInfo token pages'))
      else if max_pages > 0 ∧ (pages' : Int) ≥ max_pages then
        some (.ok (items', mkPageInfo token pages'))
      else if ¬resp.has_more ∨ token = "" then
        some (.ok (items', mkPageInfo token pages'))
      else fetchLoop store limit max_pages page_size fuel items' pages'

/-- `fetch_records` (fetch_tasks.py lines 188-248): page-size clamping
(lines 199-201) followed by the pagination loop starting from an empty
accumulator and page counter zero. -/
def fetch_records (store : Nat → Int → SearchResp α) (page_size limit max_pages : Int)
    (fuel : Nat) : Option (Except String (List α × PageInfo)) :=
  let ps := clamp_page_size page_size
  let ps := if limit > 0 ∧ limit < ps then limit else ps
  fetchLoop store limit max_pages ps fuel [] 0

/-- `bitable_value_to_string` (fetch_tasks.py lines 251-252). -/
def bitable_value_to_string (v : Value) : Option String :=
  (normalize_bitable_value v).map pyStrip

/-- `field_string` (fetch_tasks.py lines 343-346); a missing key yields
`fields.get(name) = None`, normalized to `""`. -/
def field_string (fields : List (String × Value)) (name : String) : Option String :=
  if fields.isEmpty || name = "" then some ""
  else bitable_value_to_string (pyGetD fields name .vnull)

/-- `field_int` (fetch_tasks.py lines 349-356).  Only `ValueError` is
caught by the source (parse failure, or `int()` of a NaN): those yield `0`.
An infinite float makes `int()` raise an uncaught `OverflowError`,
modelled as `none`. -/
def field_int (fields : List (String × Value)) (name : String) : Option Int :=
  match field_string fields name with
  | none => none
  | some raw =>
    if raw = "" then some 0
    else
      match pyParseFloatTrunc raw with
      | .finite i => some i
      | .nanv => some 0
      | .invalid => some 0
      | .infinite => none

/-- The decoded task entity (fetch_tasks.py lines 370-396). -/
structure Task where
  task_id : Int
  biz_task_id : String
  parent_task_id : String
  app : String
  scene : String
  params : String
  item_id : String
  book_id : String
  url : String
  user_id : String
  user_name : String
  date : String
  status : String
  extra : String
  logs : String
  last_screenshot : String
  group_id : String
  device_serial : String
  dispatched_device : String
  dispatched_at : String
  start_at : String
  end_at : String
  elapsed_seconds : String
  items_collected : String
  retry_count : String
deriving DecidableEq, Repr

/-- `decode_task` (fetch_tasks.py lines 359-410).  The inner `Option` is
the function's own `Task|None` result; the outer `Option` is `none` when
an exception escapes (from `field_int`/`field_string`).  `mapping` is a
complete logical-to-physical map, so the Python `mapping[name]` subscripts
cannot raise. -/
def seqOption : List (Option α) → Option (List α)
  | [] => some []
  | o :: rest =>
    match o with
    | none => none
    | some v => (seqOption rest).map (fun vs => v :: vs)

/-- The logical field names read by `decode_task`, in the order the source
builds the task dict (fetch_tasks.py lines 372-395). -/
def taskStringKeys : List String :=
  ["BizTaskID", "ParentTaskID", "App", "Scene", "Params", "ItemID",
   "BookID", "URL", "UserID", "UserName", "Date", "Status", "Extra",
   "Logs", "LastScreenShot", "GroupID", "DeviceSerial", "DispatchedDevice",
   "DispatchedAt", "StartAt", "EndAt", "ElapsedSeconds", "ItemsCollected",
   "RetryCount"]

def decode_task (fields : List (String × Value)) (mapping : String → String) :
    Option (Option Task) :=
  if fields.isEmpty then some none
  else
    (field_int fields (mapping "TaskID")).bind fun task_id =>
    if task_id = 0 then some none
    else
      (seqOption (taskStringKeys.map
          (fun k => field_string fields (mapping k)))).bind fun vals =>
      let g := fun (i : Nat) => vals.getD i ""
      let t : Task := {
        task_id,
        biz_task_id := g 0, parent_task_id := g 1, app := g 2, scene := g 3,
        params := g 4, item_id := g 5, book_id := g 6, url := g 7,
        user_id := g 8, user_name := g 9, date := g 10, status := g 11,
        extra := g 12, logs := g 13, last_screenshot := g 14,
        group_id := g 15, device_serial := g 16, dispatched_device := g 17,
        dispatched_at := g 18, start_at := g 19, end_at := g 20,
        elapsed_seconds := g 21, items_collected := g 22,
        retry_count := g 23 }
      if t.params ≠ "" ∨ t.item_id ≠ "" ∨ t.book_id ≠ "" ∨ t.url ≠ "" ∨
         t.user_id ≠ "" ∨ t.user_name ≠ "" then
        some (some t)
      else
        some none

end FetchTasks

/-- Python truthiness of an embedded value (`bool(x)`). -/
def pyTruthy : Value → Bool
  | .vnull => false
  | .vbool b => b
  | .vint n => n != 0
  | .vfloat m _ => m != 0
  | .vstr s => s != ""
  | .vbytes bs => !bs.isEmpty
  | .vlist l => !l.isEmpty
  | .vobj o => !o.isEmpty
  | .vother _ => true

def isVNull : Value → Bool
  | .vnull => true
  | _ => false

namespace CreateTasks

/-!
Embedding of `create_tasks.py`.  That script imports shared helpers from
`bitable_common`, which is not part of the sources: wherever a helper has a
textually identical counterpart in `fetch_tasks.py`
(`bitable_value_to_string`, `clamp_page_size`, `MAX_PAGE_SIZE`, the filter
shapes) we reuse the `FetchTasks` embedding; the remaining collaborators
(`coerce_millis`, `coerce_int`, `coerce_date_payload`, `normalize_extra`)
are taken as function parameters, constrained only where the spec (§4.6,
§4.7) pins down how their results are used. -/

def MAX_BATCH_SIZE : Int := 500

def MAX_FILTER_VALUES : Int := 50

/-- `APP_GROUP_LABELS` (create_tasks.py lines 16-18). -/
def APP_GROUP_LABELS : List (String × String) := [("com.smile.gifmaker", "快手")]

/-- One creation request, in the normalized shape `load_creates` hands to
`build_create_fields`: the textual fields are strings (empty = absent), the
coerced fields carry the raw value (`vnull` = absent/None), and `fields` is
the physical-column override map. -/
structure CreateItem where
  biz_task_id : String := ""
  parent_task_id : String := ""
  app : String := ""
  scene : String := ""
  params : String := ""
  item_id : String := ""
  book_id : String := ""
  url : String := ""
  user_id : String := ""
  user_name : String := ""
  status : String := ""
  logs : String := ""
  last_screenshot : String := ""
  group_id : String := ""
  date : Value := .vnull
  device_serial : String := ""
  dispatched_device : String := ""
  dispatched_at : Value := .vnull
  start_at : Value := .vnull
  completed_at : Value := .vnull
  end_at : Value := .vnull
  elapsed_seconds : Value := .vnull
  items_collected : Value := .vnull
  retry_count : Value := .vnull
  extra : Value := .vnull
  force_extra : Bool := false
  fields : List (String × Value) := []

/-- Python dict assignment on the physical-fields map: an existing key is
updated in place, a new key is appended. -/
def upsert (m : List (String × Value)) (k : String) (v : Value) : List (String × Value) :=
  match m with
  | [] => [(k, v)]
  | (k', v') :: rest => if k' = k then (k, v) :: rest else (k', v') :: upsert rest k v

/-- Lookup in the physical-fields map. -/
def lookupV (m : List (String × Value)) (k : String) : Option Value :=
  match m with
  | [] => none
  | (k', v) :: rest => if k' = k then some v else lookupV rest k

/-- The final override merge of `build_create_fields`
(create_tasks.py lines 121-125). -/
def applyOverrides (fields : List (String × Value)) :
    List (String × Value) → List (String × Value)
  | [] => fields
  | (k, v) :: rest =>
    applyOverrides (if k ≠ "" ∧ !isVNull v then upsert fields k v else fields) rest

/-- `build_create_fields` (create_tasks.py lines 23-127).
`coerceMillis`, `coerceInt`, `coerceDate`, `normExtra` stand for
`common.coerce_millis`, `common.coerce_int`, `common.coerce_date_payload`
and `common.normalize_extra` (spec §4.6/§4.7); `fields_map` maps a logical
name to its physical column, `""` meaning unmapped (`fields_map.get(f)`
falsy).  `int((end_ms - start_ms) / 1000)` is modelled as exact truncated
division (`Int.tdiv`); IEEE rounding of the intermediate float quotient is
not modelled. -/
def build_create_fields (coerceMillis : Value → Option Int) (coerceInt : Value → Option Int)
    (coerceDate : Value → Option Value) (normExtra : Value → Value)
    (fields_map : String → String) (item : CreateItem) : List (String × Value) :=
  let emit := fun (fs : List (String × Value)) (field : String) (v : String) =>
    if v ≠ "" ∧ fields_map field ≠ "" then upsert fs (fields_map field) (.vstr v) else fs
  let app_value := pyStrip item.app
  let book_id_value := pyStrip item.book_id
  let user_id_value := pyStrip item.user_id
  let group_id_value := pyStrip item.group_id
  let fields : List (String × Value) := []
  let fields := emit fields "BizTaskID" (pyStrip item.biz_task_id)
  let fields := emit fields "ParentTaskID" (pyStrip item.parent_task_id)
  let fields := emit fields "App" app_value
  let fields := emit fields "Scene" (pyStrip item.scene)
  let fields := emit fields "Params" (pyStrip item.params)
  let fields := emit fields "ItemID" (pyStrip item.item_id)
  let fields := emit fields "BookID" book_id_value
  let fields := emit fields "URL" (pyStrip item.url)
  let fields := emit fields "UserID" user_id_value
  let fields := emit fields "UserName" (pyStrip item.user_name)
  let fields := emit fields "Status" (pyStrip item.status)
  let fields := emit fields "Logs" (pyStrip item.logs)
  let fields := emit fields "LastScreenShot" (pyStrip item.last_screenshot)
  let fields := emit fields "GroupID" group_id_value
  let fields :=
    if group_id_value = "" ∧ app_value ≠ "" ∧ book_id_value ≠ "" ∧ user_id_value ≠ "" ∧
       fields_map "GroupID" ≠ "" then
      let app_label := FetchTasks.lookupD APP_GROUP_LABELS app_value app_value
      upsert fields (fields_map "GroupID")
        (.vstr (app_label ++ "_" ++ book_id_value ++ "_" ++ user_id_value))
    else fields
  let fields :=
    if (!isVNull item.date) ∧ fields_map "Date" ≠ "" then
      match coerceDate item.date with
      | none => fields
      | some payload => upsert fields (fields_map "Date") payload
    else fields
  let device_serial := pyStrip item.device_serial
  let fields := emit fields "DeviceSerial" device_serial
  let dispatched_device0 := pyStrip item.dispatched_device
  let dispatched_device := if dispatched_device0 = "" then device_serial else dispatched_device0
  let fields := emit fields "DispatchedDevice" dispatched_device
  let dispatched_ms := coerceMillis item.dispatched_at
  let start_ms0 := coerceMillis item.start_at
  let fields :=
    match dispatched_ms with
    | some ms => if fields_map "DispatchedAt" ≠ "" then
        upsert fields (fields_map "DispatchedAt") (.vint ms) else fields
    | none => fields
  let start_ms := if start_ms0 = none then dispatched_ms else start_ms0
  let fields :=
    match start_ms with
    | some ms => if fields_map "StartAt" ≠ "" then
        upsert fields (fields_map "StartAt") (.vint ms) else fields
    | none => fields
  let completed_ms := coerceMillis item.completed_at
  let end_ms0 := coerceMillis item.end_at
  let end_ms := if completed_ms ≠ none then completed_ms else end_ms0
  let fields :=
    match end_ms with
    | some ms => if fields_map "EndAt" ≠ "" then
        upsert fields (fields_map "EndAt") (.vint ms) else fields
    | none => fields
  let elapsed0 := coerceInt item.elapsed_seconds
  let elapsed :=
    match elapsed0, start_ms, end_ms with
    | none, some s, some e => some (max 0 ((e - s).tdiv 1000))
    | x, _, _ => x
  let fields :=
    match elapsed with
    | some v => if fields_map "ElapsedSeconds" ≠ "" then
        upsert fields (fields_map "ElapsedSeconds") (.vint v) else fields
    | none => fields
  let fields :=
    match coerceInt item.items_collected with
    | some v => if fields_map "ItemsCollected" ≠ "" then
        upsert fields (fields_map "ItemsCollected") (.vint v) else fields
    | none => fields
  let fields :=
    match coerceInt item.retry_count with
    | some v => if fields_map "RetryCount" ≠ "" then
        upsert fields (fields_map "RetryCount") (.vint v) else fields
    | none => fields
  let fields :=
    if fields_map "Extra" ≠ "" ∧ !isVNull item.extra then
      let extra_payload := normExtra item.extra
      if pyTruthy extra_payload || item.force_extra then
        upsert fields (fields_map "Extra") extra_payload
      else fields
    else fields
  applyOverrides fields item.fields

/-- `chunked` for a positive chunk size: each step consumes the chunk
`take n` and recurses on `drop n` (assumes `1 ≤ n`, which `chunked`
guarantees). -/
def chunkedPos (n : Nat) : List α → List (List α)
  | [] => []
  | x :: rest => (x :: rest.take (n - 1)) :: chunkedPos n (rest.drop (n - 1))
termination_by l => l.length
decreasing_by
simp
have := List.length_drop (n - 1) rest
omega

/-- `chunked` (create_tasks.py lines 156-159). -/
def chunked (values : List α) (size : Int) : List (List α) :=
  if size ≤ 0 then [values] else chunkedPos size.toNat values

/-- The condition-accumulation loop of `build_id_filter`
(create_tasks.py lines 166-173): blank and already-seen values are
skipped, the remaining values produce one `is` condition each, in first
occurrence order. -/
def buildIdConds (fn : String) : List String → List String → List FetchTasks.Condition
  | [], _ => []
  | v :: rest, seen =>
    let v' := pyStrip v
    if v' = "" ∨ v' ∈ seen then buildIdConds fn rest seen
    else ⟨fn, "is", [v']⟩ :: buildIdConds fn rest (v' :: seen)

/-- `build_id_filter` (create_tasks.py lines 162-176). -/
def build_id_filter (field_name : String) (values : List String) :
    Option FetchTasks.Filter :=
  let fn := pyStrip field_name
  if fn = "" then none
  else
    let conds := buildIdConds fn values []
    if conds.isEmpty then none else some ⟨"or", conds⟩

/-- One row of a search response (`{record_id, fields}`). -/
structure RecordItem where
  record_id : String
  fields : List (String × Value)

/-- String-to-string association lookup (the `existing` dict). -/
def lookupS (m : List (String × String)) (k : String) : Option String :=
  match m with
  | [] => none
  | (k', v) :: rest => if k' = k then some v else lookupS rest k

/-- The per-row accumulation of `resolve_existing_by_field`
(create_tasks.py lines 220-225): keep the first record id seen for each
distinct non-empty normalized value.  `none` models an exception escaping
from the cell normalization. -/
def addItems (field_name : String) :
    List RecordItem → List (String × String) → Option (List (String × String))
  | [], existing => some existing
  | it :: rest, existing =>
    let record_id := pyStrip it.record_id
    match FetchTasks.bitable_value_to_string (pyGetD it.fields field_name (.vstr "")) with
    | none => none
    | some value =>
      let existing' :=
        if record_id ≠ "" ∧ value ≠ "" ∧ lookupS existing value = none then
          existing ++ [(value, record_id)]
        else existing
      addItems field_name rest existing'

/-- The chunk loop of `resolve_existing_by_field` (create_tasks.py lines
209-225).  The remote search is modelled as `store`, indexed by the number
of lookup calls already issued; a chunk whose filter is `none` is skipped
without issuing a call.  The second result component is the log of issued
filters. -/
def resolveGo (store : Nat → List RecordItem) (field_name : String) :
    List (List String) → Nat → List (String × String) → List FetchTasks.Filter →
    Option (List (String × String) × List FetchTasks.Filter)
  | [], _, existing, log => some (existing, log)
  | batch :: rest, calls, existing, log =>
    match build_id_filter field_name batch with
    | none => resolveGo store field_name rest calls existing log
    | some fo =>
      match addItems field_name (store calls) existing with
      | none => none
      | some existing' =>
        resolveGo store field_name rest (calls + 1) existing' (log ++ [fo])

/-- `resolve_existing_by_field` (create_tasks.py lines 199-226). -/
def resolve_existing_by_field (store : Nat → List RecordItem) (field_name : String)
    (values : List String) :
    Option (List (String × String) × List FetchTasks.Filter) :=
  if values.isEmpty then some ([], [])
  else resolveGo store field_name (chunked values MAX_FILTER_VALUES) 0 [] []

/-- `record_exists` (create_tasks.py lines 229-241).  `resp` is the outcome
of the direct row lookup: `.error` models any exception from the transport
or JSON decoding (caught by the bare `except`), `.ok code` a decoded
response with its optional `code` field. -/
def record_exists (record_id : String) (resp : Except String (Option Int)) : Bool :=
  if pyStrip record_id = "" then false
  else
    match resp with
    | .error _ => false
    | .ok code => code == some 0

/-- The chunked batch-create loop of `main` (create_tasks.py lines 612-617):
returns `(created, errors, batch calls issued)`.  `outcome i` is the result
of the `i`-th `batch_create_records` call (`.error` models the
`RuntimeError` raised on a non-zero response code, lines 137-140); the
first failure stops the loop, appending a single error. -/
def runBatchLoop (outcome : Nat → Except String Unit) :
    List (List α) → Nat → Nat × List String × Nat
  | [], _ => (0, [], 0)
  | batch :: rest, idx =>
    match outcome idx with
    | .error e => (0, [e], 1)
    | .ok _ =>
      let r := runBatchLoop outcome rest (idx + 1)
      (batch.length + r.1, r.2.1, 1 + r.2.2)

/-- The create-dispatch block of `main` (create_tasks.py lines 606-617):
one record goes through the single-create call (`singleOutcome`), any other
count through the chunked batch loop.  Result: `(created, errors appended
by this block, number of batch_create calls issued)`. -/
def runCreates (records : List α) (singleOutcome : Except String Unit)
    (outcome : Nat → Except String Unit) : Nat × List String × Nat :=
  if records.length = 1 then
    match singleOutcome with
    | .ok _ => (1, [], 0)
    | .error e => (0, [e], 0)
  else runBatchLoop outcome (chunked records MAX_BATCH_SIZE) 0

end CreateTasks

section NormalizeEquations

/-!
Restatements of the defining equations of the (well-founded recursive)
normalizer family, usable for rewriting concrete instances.
-/

theorem norm_vnull : normalize_bitable_value .vnull = some "" := by
  rw [normalize_bitable_value]

theorem norm_vstr (s : String) :
    normalize_bitable_value (.vstr s) = some (pyStrip s) := by
  rw [normalize_bitable_value]

theorem norm_vbytes (bs : List Nat) :
    normalize_bitable_value (.vbytes bs) = (utf8DecodeStr bs).map pyStrip := by
  rw [normalize_bitable_value]

theorem norm_vbool (b : Bool) :
    normalize_bitable_value (.vbool b) = some (if b then "True" else "False") := by
  rw [normalize_bitable_value]

theorem norm_vint (n : Int) :
    normalize_bitable_value (.vint n) = some (toString n) := by
  rw [normalize_bitable_value]

theorem norm_vfloat (m : Int) (e : Nat) :
    normalize_bitable_value (.vfloat m e) = some (floatStr m e) := by
  rw [normalize_bitable_value]

theorem norm_vlist (items : List Value) :
    normalize_bitable_value (.vlist items) = normalize_bitable_array items := by
  rw [normalize_bitable_value]

theorem norm_vobj (o : List (String × Value)) :
    normalize_bitable_value (.vobj o) = normalize_bitable_object o := by
  rw [normalize_bitable_value]

theorem norm_vother (r : String) :
    normalize_bitable_value (.vother r) = some (pyStrip r) := by
  rw [normalize_bitable_value]

theorem norm_array_eq (items : List Value) :
    normalize_bitable_array items =
      if items.isEmpty then some ""
      else if is_rich_text_array items then join_rich_text items
      else
        match normalizeEach items with
        | none => none
        | some parts =>
          let kept := parts.filter (fun p => p ≠ "")
          some (if kept.isEmpty then "" else String.intercalate "," kept) := by
  rw [normalize_bitable_array]

theorem normalizeEach_nil : normalizeEach [] = some [] := by
  rw [normalizeEach]

theorem normalizeEach_cons (v : Value) (rest : List Value) :
    normalizeEach (v :: rest) =
      match normalize_bitable_value v with
      | none => none
      | some s => (normalizeEach rest).map (fun ss => s :: ss) := by
  rw [normalizeEach]

theorem join_rich_text_eq (items : List Value) :
    join_rich_text items =
      match joinRichParts items with
      | none => none
      | some parts =>
        some (if parts.isEmpty then "" else String.intercalate " " parts) := by
  rw [join_rich_text]

theorem joinRichParts_nil : joinRichParts [] = some [] := by
  rw [joinRichParts]

theorem joinRichParts_cons_obj (o : List (String × Value)) (rest : List Value) :
    joinRichParts (.vobj o :: rest) =
      match pyGetD o "text" .vnull with
      | .vstr s =>
        if pyStrip s ≠ "" then (joinRichParts rest).map (fun ps => pyStrip s :: ps)
        else
          match normalize_bitable_value (pyGetD o "value" .vnull) with
          | none => none
          | some nested =>
            (joinRichParts rest).map (fun ps => if nested ≠ "" then nested :: ps else ps)
      | _ =>
        match normalize_bitable_value (pyGetD o "value" .vnull) with
        | none => none
        | some nested =>
          (joinRichParts rest).map (fun ps => if nested ≠ "" then nested :: ps else ps) := by
  rw [joinRichParts]

theorem norm_object_eq (o : List (String × Value)) :
    normalize_bitable_object o =
      if o.isEmpty then some ""
      else
        orElseNE (if hasKey o "value" then normalize_bitable_value (pyGetD o "value" .vnull) else some "") (fun _ =>
        orElseNE (if hasKey o "values" then normalize_bitable_value (pyGetD o "values" .vnull) else some "") (fun _ =>
        orElseNE (if hasKey o "elements" then normalize_bitable_value (pyGetD o "elements" .vnull) else some "") (fun _ =>
        orElseNE (if hasKey o "content" then normalize_bitable_value (pyGetD o "content" .vnull) else some "") (fun _ =>
        orElseNE (some (match pyGetD o "text" .vnull with
                        | .vstr s => pyStrip s
                        | _ => "")) (fun _ =>
        orElseNE (normalize_bitable_value (pyGetD o "link" .vnull)) (fun _ =>
        orElseNE (normalize_bitable_value (pyGetD o "name" .vnull)) (fun _ =>
        orElseNE (normalize_bitable_value (pyGetD o "en_name" .vnull)) (fun _ =>
        orElseNE (normalize_bitable_value (pyGetD o "email" .vnull)) (fun _ =>
        orElseNE (normalize_bitable_value (pyGetD o "id" .vnull)) (fun _ =>
        orElseNE (normalize_bitable_value (pyGetD o "user_id" .vnull)) (fun _ =>
        orElseNE (normalize_bitable_value (pyGetD o "url" .vnull)) (fun _ =>
        orElseNE (normalize_bitable_value (pyGetD o "tmp_url" .vnull)) (fun _ =>
        orElseNE (normalize_bitable_value (pyGetD o "file_token" .vnull)) (fun _ =>
        orElseNE (if hasKey o "address" || hasKey o "location" || hasKey o "pname" ||
                     hasKey o "cityname" || hasKey o "adname" then
                    match normalize_bitable_value (pyGetD o "location" .vnull) with
                    | none => none
                    | some p1 =>
                      match normalize_bitable_value (pyGetD o "pname" .vnull) with
                      | none => none
                      | some p2 =>
                        match normalize_bitable_value (pyGetD o "cityname" .vnull) with
                        | none => none
                        | some p3 =>
                          match normalize_bitable_value (pyGetD o "adname" .vnull) with
                          | none => none
                          | some p4 =>
                            let kept := [p1, p2, p3, p4].filter (fun p => p ≠ "")
                            some (if kept.isEmpty then "" else String.intercalate "," kept)
                  else some "") (fun _ =>
        some ((pyJsonDumps (.vobj o)).getD "")))))))))))))))) := by
  rw [normalize_bitable_object]

end NormalizeEquations

/-- C1: the claim says the value normalizer returns "true" for true and
"false" for false.  In the source the `isinstance(value, int)` test
(fetch_tasks.py line 262) precedes the `isinstance(value, bool)` test
(line 268), and Python `bool` is a subclass of `int`, so a boolean is
formatted by the integer branch as `str(True)="True"` / `str(False)="False"`;
the `"true"/"false"` branch is unreachable.  This theorem evaluates the
embedded code at both boolean inputs, exhibiting the divergence. -/
theorem C1_normalizer_prints_bools_capitalized :
    normalize_bitable_value (.vbool true) = some "True" ∧
    normalize_bitable_value (.vbool false) = some "False" := by
  constructor <;> rw [norm_vbool] <;> rfl

/-- C9: `record_exists` returns a boolean; any transport or decoding
failure of the direct row lookup (the bare `except` of
create_tasks.py lines 237-240) yields `false` rather than propagating,
and a decoded response yields `true` exactly when the stripped record id
is non-empty and the response code is 0. -/
theorem C9_record_exists_failure_is_false :
    (∀ (record_id msg : String),
        CreateTasks.record_exists record_id (.error msg) = false) ∧
    (∀ (record_id : String) (code : Option Int),
        CreateTasks.record_exists record_id (.ok code) =
          (pyStrip record_id != "" && code == some 0)) := by
  constructor
  · intro rid msg
    by_cases h : pyStrip rid = "" <;> simp [CreateTasks.record_exists, h]
  · intro rid code
    by_cases h : pyStrip rid = "" <;> simp [CreateTasks.record_exists, h]

/-- C10: `build_filter` never emits a Date condition when the date preset
is the literal `"Any"` or empty (fetch_tasks.py line 180): with blank
app/scene/status and preset `"Any"` (or `""`) the result is `none` for
every field mapping — even one that maps `Date` — and in general a preset
of `"Any"` behaves exactly like an absent preset. -/
theorem C10_any_date_preset_emits_no_condition :
    (∀ fields : List (String × String),
        FetchTasks.build_filter fields "" "" "" "Any" = none) ∧
    (∀ fields : List (String × String),
        FetchTasks.build_filter fields "" "" "" "" = none) ∧
    (∀ (fields : List (String × String)) (app scene status : String),
        FetchTasks.build_filter fields app scene status "Any" =
        FetchTasks.build_filter fields app scene status "") := by
  refine ⟨?_, ?_, ?_⟩
  · intro fields
    simp [FetchTasks.build_filter, FetchTasks.addCond, pyStrip, pyStripChars, pyWs]
  · intro fields
    simp [FetchTasks.build_filter, FetchTasks.addCond, pyStrip, pyStripChars, pyWs]
  · intro fields app scene status
    simp [FetchTasks.build_filter]

namespace FetchTasks

theorem mkPageInfo_spec (tok : String) (p : Nat) :
    ((mkPageInfo tok p).has_more = true ↔ (mkPageInfo tok p).next_page_token ≠ "") := by
  simp [mkPageInfo]

/-- The three-page stub store of spec §8: two rows per page, `has_more`
with a cursor after the first two pages, exhausted on the third. -/
def store3 : Nat → Int → SearchResp Nat := fun i _ =>
  if i = 0 then ⟨0, "", [0, 1], true, "t1"⟩
  else if i = 1 then ⟨0, "", [2, 3], true, "t2"⟩
  else ⟨0, "", [4, 5], false, ""⟩

/-- A single-page store whose own `has_more` flag denies more data while
still returning a non-empty cursor. -/
def storeDisagree : Nat → Int → SearchResp Nat := fun _ _ =>
  ⟨0, "", [0], false, "tok"⟩

end FetchTasks

/-- C4: whenever the pagination loop returns a result, the returned
`PageInfo.has_more` is true exactly when the cursor held at stop time is
non-empty (fetch_tasks.py line 248) — for every store-response sequence
and every budget, so in particular when the store's own `has_more` flag
disagrees with a non-empty cursor; the second conjunct runs the fetcher
against such a store (`has_more=False`, cursor `"tok"`) and the cursor is
trusted. -/
theorem C4_has_more_iff_final_cursor_nonempty :
    (∀ (α : Type) (store : Nat → Int → FetchTasks.SearchResp α)
        (limit max_pages page_size : Int) (fuel : Nat) (acc : List α) (pages : Nat)
        (rows : List α) (info : FetchTasks.PageInfo),
        FetchTasks.fetchLoop store limit max_pages page_size fuel acc pages =
          some (.ok (rows, info)) →
        (info.has_more = true ↔ info.next_page_token ≠ "")) ∧
    FetchTasks.fetch_records FetchTasks.storeDisagree 200 0 0 5 =
      some (.ok ([0], ⟨true, "tok", 1⟩)) := by
  constructor
  · intro α store limit max_pages page_size fuel
    induction fuel with
    | zero =>
      intro acc pages rows info h
      simp [FetchTasks.fetchLoop] at h
    | succ n ih =>
      intro acc pages rows info h
      rw [FetchTasks.fetchLoop] at h
      split at h
      · simp at h
      · simp only [] at h
        split at h
        · simp at h
          obtain ⟨_, h2⟩ := h
          rw [← h2]
          exact FetchTasks.mkPageInfo_spec _ _
        · split at h
          · simp at h
            obtain ⟨_, h2⟩ := h
            rw [← h2]
            exact FetchTasks.mkPageInfo_spec _ _
          · split at h
            · simp at h
              obtain ⟨_, h2⟩ := h
              rw [← h2]
              exact FetchTasks.mkPageInfo_spec _ _
            · exact ih _ _ _ _ h
  · rfl

/-- Witness for C4: the cursor-vs-flag disagreement store, run through the
fetcher; the returned page info says `has_more` iff the cursor is
non-empty. -/
theorem C4_witness :
    ((⟨true, "tok", 1⟩ : FetchTasks.PageInfo).has_more = true ↔
      (⟨true, "tok", 1⟩ : FetchTasks.PageInfo).next_page_token ≠ "") :=
  C4_has_more_iff_final_cursor_nonempty.1 Nat FetchTasks.storeDisagree 0 0 200 5 [] 0
    [0] ⟨true, "tok", 1⟩ (by rfl)

/-- C6: (1) whenever one more page makes the accumulated rows reach or
exceed a positive `limit`, the loop stops on that page and returns exactly
`limit` rows, truncating the excess; (2) against the three-page/two-row
stub store with `limit=0, max_pages=0` the fetcher returns all 6 rows with
`pages = 3`; (3) with `limit=4` it returns exactly 4 rows. -/
theorem C6_limit_truncates_to_exactly_limit :
    (∀ (α : Type) (store : Nat → Int → FetchTasks.SearchResp α)
        (limit max_pages page_size : Int) (fuel : Nat) (acc : List α) (pages : Nat),
        0 < limit →
        (store pages page_size).code = 0 →
        limit ≤ (acc.length : Int) + ((store pages page_size).items.length : Int) →
        FetchTasks.fetchLoop store limit max_pages page_size (fuel + 1) acc pages =
          some (.ok ((acc ++ (store pages page_size).items).take limit.toNat,
            FetchTasks.mkPageInfo (pyStrip (store pages page_size).page_token) (pages + 1))) ∧
        ((acc ++ (store pages page_size).items).take limit.toNat).length = limit.toNat) ∧
    FetchTasks.fetch_records FetchTasks.store3 200 0 0 10 =
      some (.ok ([0, 1, 2, 3, 4, 5], ⟨false, "", 3⟩)) ∧
    FetchTasks.fetch_records FetchTasks.store3 200 4 0 10 =
      some (.ok ([0, 1, 2, 3], ⟨true, "t2", 2⟩)) := by
  refine ⟨?_, by rfl, by rfl⟩
  intro α store limit max_pages page_size fuel acc pages hlim hcode hge
  constructor
  · rw [FetchTasks.fetchLoop]
    rw [if_neg (by simp [hcode])]
    simp only []
    rw [if_pos]
    constructor
    · exact hlim
    · push_cast
      simpa using hge
  · rw [List.length_take, List.length_append]
    omega

/-- Witness for C6: one more page (two rows) on top of two accumulated rows
reaches the limit 4, and the loop stops there returning exactly 4 rows. -/
theorem C6_witness :
    (FetchTasks.fetchLoop FetchTasks.store3 4 0 4 1 [0, 1] 1 =
      some (.ok (([0, 1] ++ (FetchTasks.store3 1 4).items).take (4 : Int).toNat,
        FetchTasks.mkPageInfo (pyStrip (FetchTasks.store3 1 4).page_token) 2)) ∧
    (([0, 1] ++ (FetchTasks.store3 1 4).items).take (4 : Int).toNat).length =
      (4 : Int).toNat) :=
  C6_limit_truncates_to_exactly_limit.1 Nat FetchTasks.store3 4 0 4 0 [0, 1] 1
    (by decide) (by decide) (by decide)

namespace CreateTasks

theorem chunkedPos_nil (n : Nat) : chunkedPos n ([] : List α) = [] := by
  rw [chunkedPos]

theorem chunkedPos_cons (n : Nat) (x : α) (rest : List α) :
    chunkedPos n (x :: rest) =
      (x :: rest.take (n - 1)) :: chunkedPos n (rest.drop (n - 1)) := by
  rw [chunkedPos]

theorem chunkedPos_replicate_big (n m : Nat) (x : α) (h1 : 0 < n) (h2 : n < m) :
    chunkedPos n (List.replicate m x) =
      List.replicate n x :: chunkedPos n (List.replicate (m - n) x) := by
  obtain ⟨m', rfl⟩ : ∃ m', m = m' + 1 := ⟨m - 1, by omega⟩
  rw [List.replicate_succ, chunkedPos_cons, List.take_replicate, List.drop_replicate]
  have hmin : min (n - 1) m' = n - 1 := by omega
  rw [hmin]
  have : x :: List.replicate (n - 1) x = List.replicate n x := by
    rw [← List.replicate_succ]
    congr 1
    omega
  rw [this]
  have hsub : m' - (n - 1) = m' + 1 - n := by omega
  rw [hsub]

theorem chunkedPos_replicate_small (n m : Nat) (x : α) (h1 : 0 < m) (h2 : m ≤ n) :
    chunkedPos n (List.replicate m x) = [List.replicate m x] := by
  obtain ⟨m', rfl⟩ : ∃ m', m = m' + 1 := ⟨m - 1, by omega⟩
  rw [List.replicate_succ, chunkedPos_cons, List.take_replicate, List.drop_replicate]
  have hmin : min (n - 1) m' = m' := by omega
  rw [hmin]
  have hdrop : m' - (n - 1) = 0 := by omega
  rw [hdrop]
  simp [chunkedPos_nil, ← List.replicate_succ]

/-- The 1200-payload instance of spec §8: `chunked` cuts it into
500/500/200. -/
theorem chunked_1200_replicate (x : α) :
    chunked (List.replicate 1200 x) MAX_BATCH_SIZE =
      [List.replicate 500 x, List.replicate 500 x, List.replicate 200 x] := by
  rw [chunked, if_neg (by decide)]
  have h500 : (MAX_BATCH_SIZE).toNat = 500 := by decide
  rw [h500]
  rw [chunkedPos_replicate_big 500 1200 x (by norm_num) (by norm_num)]
  norm_num
  rw [chunkedPos_replicate_big 500 700 x (by norm_num) (by norm_num)]
  norm_num
  rw [chunkedPos_replicate_small 500 200 x (by norm_num) (by norm_num)]

/-- Fail-fast spec of the chunked batch loop: if the first `k` calls
succeed and call `k` fails, the loop stops having created exactly the rows
of the first `k` chunks, appending the single error, with `k + 1` calls
issued. -/
theorem runBatchLoop_fail_spec (outcome : Nat → Except String Unit) (msg : String) :
    ∀ (k : Nat) (chunks : List (List α)) (idx : Nat),
      (∀ j, j < k → outcome (idx + j) = .ok ()) →
      outcome (idx + k) = .error msg →
      k < chunks.length →
      runBatchLoop outcome chunks idx =
        (((chunks.take k).map List.length).sum, [msg], k + 1) := by
  intro k
  induction k with
  | zero =>
    intro chunks idx hok herr hlt
    match chunks with
    | [] => simp at hlt
    | c :: rest =>
      rw [runBatchLoop]
      simp only [Nat.add_zero] at herr
      rw [herr]
      simp
  | succ k ih =>
    intro chunks idx hok herr hlt
    match chunks with
    | [] => simp at hlt
    | c :: rest =>
      rw [runBatchLoop]
      have h0 : outcome idx = .ok () := by
        have := hok 0 (by omega)
        simpa using this
      rw [h0]
      have hrest : runBatchLoop outcome rest (idx + 1) =
          (((rest.take k).map List.length).sum, [msg], k + 1) := by
        apply ih rest (idx + 1)
        · intro j hj
          have := hok (j + 1) (by omega)
          convert this using 2
          omega
        · convert herr using 2
          omega
        · simpa using hlt
      rw [hrest]
      simp [List.take_succ_cons, Nat.add_comm]

/-- All-success spec of the chunked batch loop: every chunk is submitted,
the created count is the total row count, and no error is appended. -/
theorem runBatchLoop_ok_spec (outcome : Nat → Except String Unit)
    (hok : ∀ j, outcome j = .ok ()) :
    ∀ (chunks : List (List α)) (idx : Nat),
      runBatchLoop outcome chunks idx =
        ((chunks.map List.length).sum, [], chunks.length) := by
  intro chunks
  induction chunks with
  | nil => intro idx; rw [runBatchLoop]; simp
  | cons c rest ih =>
    intro idx
    rw [runBatchLoop, hok idx, ih (idx + 1)]
    simp [Nat.add_comm]

end CreateTasks

/-- The failing-second-chunk call outcome of spec §8's batch example. -/
def boomOutcome : Nat → Except String Unit :=
  fun i => if i = 1 then .error "boom" else .ok ()

/-- C5: in the batch create orchestrator (N ≥ 2 records), (1) if the first
`k` batch calls succeed and call `k` fails, the remaining chunks are never
attempted (exactly `k + 1` calls are issued), the failure is reported as a
single aggregated error, and `created` is exactly the total row count of
the `k` completed chunks; (2) when every call succeeds, every chunk is
submitted (one call per chunk) with no errors; (3) 1200 payloads are cut
into exactly 3 chunks of 500/500/200; (4) running the 1200-payload example
with a failure on the 2nd chunk yields `created = 500`, the single error,
and only 2 calls issued — the 3rd chunk never attempted. -/
theorem C5_chunk_failure_aborts_remaining :
    (∀ (α : Type) (records : List α) (single : Except String Unit)
        (outcome : Nat → Except String Unit) (k : Nat) (msg : String),
        2 ≤ records.length →
        (∀ j, j < k → outcome j = .ok ()) →
        outcome k = .error msg →
        k < (CreateTasks.chunked records CreateTasks.MAX_BATCH_SIZE).length →
        CreateTasks.runCreates records single outcome =
          ((((CreateTasks.chunked records CreateTasks.MAX_BATCH_SIZE).take k).map
              List.length).sum, [msg], k + 1)) ∧
    (∀ (α : Type) (records : List α) (single : Except String Unit)
        (outcome : Nat → Except String Unit),
        2 ≤ records.length →
        (∀ j, outcome j = .ok ()) →
        CreateTasks.runCreates records single outcome =
          (((CreateTasks.chunked records CreateTasks.MAX_BATCH_SIZE).map
              List.length).sum, [],
            (CreateTasks.chunked records CreateTasks.MAX_BATCH_SIZE).length)) ∧
    (CreateTasks.chunked (List.replicate 1200 (0 : Nat))
        CreateTasks.MAX_BATCH_SIZE).map List.length = [500, 500, 200] ∧
    CreateTasks.runCreates (List.replicate 1200 (0 : Nat)) (.ok ()) boomOutcome =
      (500, ["boom"], 2) := by
  refine ⟨?_, ?_, ?_, ?_⟩
  · intro α records single outcome k msg hlen hok herr hk
    unfold CreateTasks.runCreates
    rw [if_neg (by omega)]
    exact CreateTasks.runBatchLoop_fail_spec outcome msg k
      (CreateTasks.chunked records CreateTasks.MAX_BATCH_SIZE) 0
      (by intro j hj; simpa using hok j hj) (by simpa using herr) hk
  · intro α records single outcome hlen hok
    unfold CreateTasks.runCreates
    rw [if_neg (by omega)]
    exact CreateTasks.runBatchLoop_ok_spec outcome hok _ 0
  · rw [CreateTasks.chunked_1200_replicate]
    simp only [List.map_cons, List.map_nil, List.length_replicate]
  · unfold CreateTasks.runCreates
    rw [if_neg (by rw [List.length_replicate]; omega)]
    rw [CreateTasks.chunked_1200_replicate]
    rw [CreateTasks.runBatchLoop_fail_spec boomOutcome "boom" 1 _ 0
      (by intro j hj; have hj0 : j = 0 := Nat.lt_one_iff.mp hj; subst hj0; rfl)
      (by rfl)
      (by simp only [List.length_cons, List.length_nil]; omega)]
    simp only [List.take_succ_cons, List.take_zero, List.map_cons, List.map_nil,
      List.length_replicate, List.sum_cons, List.sum_nil]
    rfl

/-- Witness for C5: the 1200-payload run with the second batch call
failing, through the fail-fast conjunct of the theorem. -/
theorem C5_witness :
    CreateTasks.runCreates (List.replicate 1200 (0 : Nat)) (.ok ()) boomOutcome =
      ((((CreateTasks.chunked (List.replicate 1200 (0 : Nat))
          CreateTasks.MAX_BATCH_SIZE).take 1).map List.length).sum, ["boom"], 2) :=
  C5_chunk_failure_aborts_remaining.1 Nat (List.replicate 1200 (0 : Nat)) (.ok ())
    boomOutcome 1 "boom" (by rw [List.length_replicate]; omega)
    (by intro j hj; have hj0 : j = 0 := Nat.lt_one_iff.mp hj; subst hj0; rfl)
    (by rfl)
    (by rw [CreateTasks.chunked_1200_replicate]
        simp only [List.length_cons, List.length_nil]
        omega)

/-- Truncating division (Python `int()` of the quotient) agrees with floor
division under the `max(0, ·)` guard of the elapsed-seconds rule. -/
theorem max0_tdiv_eq_fdiv (a : Int) :
    max 0 (a.tdiv 1000) = max 0 (a.fdiv 1000) := by
  rw [Int.fdiv_eq_ediv _ (by norm_num)]
  rcases le_or_lt 0 a with h | h
  · rw [Int.tdiv_eq_ediv h (by norm_num)]
  · have h1 : a.tdiv 1000 ≤ 0 := by
      have h2 := Int.tdiv_nonneg (a := -a) (b := 1000) (by omega) (by norm_num)
      rw [Int.neg_tdiv] at h2
      omega
    have h2 : a / 1000 ≤ 0 := by omega
    rw [max_eq_left h1, max_eq_left h2]

namespace CreateTasks

theorem lookupV_upsert_self (m : List (String × Value)) (k : String) (v : Value) :
    lookupV (upsert m k v) k = some v := by
  induction m with
  | nil => simp [upsert, lookupV]
  | cons p rest ih =>
    obtain ⟨k', v'⟩ := p
    by_cases h : k' = k
    · simp [upsert, lookupV, h]
    · simp [upsert, lookupV, h, ih]

end CreateTasks

/-- C7: in the create-fields builder, (1) when the elapsed-seconds input
does not coerce to an integer, start and end both coerce to millisecond
timestamps and no completed-at override or later writer interferes, the
emitted ElapsedSeconds value is `max(0, floor((end-start)/1000))`;
(2) when the group id is absent, app/book-id/user-id are present and no
later writer interferes, the emitted GroupID is
`{app-label}_{book_id}_{user_id}` with the label looked up in
`APP_GROUP_LABELS`, defaulting to the raw app value. -/
theorem C7_elapsed_and_group_id_derivation :
    (∀ (cm ci : Value → Option Int) (cd : Value → Option Value) (nx : Value → Value)
        (fm : String → String) (item : CreateTasks.CreateItem) (s e : Int),
        ci item.elapsed_seconds = none →
        cm item.start_at = some s →
        cm item.end_at = some e →
        cm item.completed_at = none →
        ci item.items_collected = none →
        ci item.retry_count = none →
        item.extra = .vnull →
        item.fields = [] →
        fm "ElapsedSeconds" ≠ "" →
        CreateTasks.lookupV (CreateTasks.build_create_fields cm ci cd nx fm item)
            (fm "ElapsedSeconds") =
          some (.vint (max 0 ((e - s).fdiv 1000)))) ∧
    (∀ (cm ci : Value → Option Int) (cd : Value → Option Value) (nx : Value → Value)
        (fm : String → String) (item : CreateTasks.CreateItem),
        pyStrip item.group_id = "" →
        pyStrip item.app ≠ "" →
        pyStrip item.book_id ≠ "" →
        pyStrip item.user_id ≠ "" →
        fm "GroupID" ≠ "" →
        item.date = .vnull →
        pyStrip item.device_serial = "" →
        pyStrip item.dispatched_device = "" →
        cm item.dispatched_at = none →
        cm item.start_at = none →
        cm item.completed_at = none →
        cm item.end_at = none →
        ci item.elapsed_seconds = none →
        ci item.items_collected = none →
        ci item.retry_count = none →
        item.extra = .vnull →
        item.fields = [] →
        CreateTasks.lookupV (CreateTasks.build_create_fields cm ci cd nx fm item)
            (fm "GroupID") =
          some (.vstr (FetchTasks.lookupD CreateTasks.APP_GROUP_LABELS
              (pyStrip item.app) (pyStrip item.app) ++ "_" ++
            pyStrip item.book_id ++ "_" ++ pyStrip item.user_id))) := by
  constructor
  · intro cm ci cd nx fm item s e h1 h2 h3 h4 h5 h6 h7 h8 h9
    rw [← max0_tdiv_eq_fdiv]
    simp only [CreateTasks.build_create_fields, h1, h2, h3, h4, h5, h6, h7, h8,
      isVNull, Bool.not_true, Bool.not_false, and_false, false_and, if_false,
      CreateTasks.applyOverrides, ne_eq, reduceCtorEq, not_false_eq_true,
      not_true_eq_false, ite_false, ite_true, Option.some.injEq]
    rw [if_pos h9]
    exact CreateTasks.lookupV_upsert_self _ _ _
  · intro cm ci cd nx fm item g1 g2 g3 g4 g5 g6 g7 g8 g9 g10 g11 g12 g13 g14 g15 g16 g17
    simp only [CreateTasks.build_create_fields, g1, g6, g7, g8, g9, g10, g11, g12,
      g13, g14, g15, g16, g17, isVNull, Bool.not_true, and_false, false_and,
      if_false, CreateTasks.applyOverrides, ne_eq, reduceCtorEq, not_false_eq_true,
      not_true_eq_false, ite_false, ite_true]
    rw [if_pos ⟨trivial, g2, g3, g4, g5⟩]
    exact CreateTasks.lookupV_upsert_self _ _ _

/-- A coercion that accepts an integer value as a millisecond timestamp /
integer and rejects anything else (used to instantiate the C7 witness). -/
def intCoerce : Value → Option Int
  | .vint n => some n
  | _ => none

/-- Witness for C7: `start_at=1000`, `end_at=4000`, no elapsed input gives
elapsed `3`; `app="acme"`, `book_id="b1"`, `user_id="u1"`, no group id
gives group id `"acme_b1_u1"` (the label falls back to the raw app). -/
theorem C7_witness :
    (CreateTasks.lookupV
        (CreateTasks.build_create_fields intCoerce intCoerce (fun _ => none) (fun v => v)
          (fun s => s) { start_at := .vint 1000, end_at := .vint 4000 })
        "ElapsedSeconds" =
      some (.vint (max 0 (((4000 : Int) - 1000).fdiv 1000))) ∧
      max 0 (((4000 : Int) - 1000).fdiv 1000) = 3) ∧
    (CreateTasks.lookupV
        (CreateTasks.build_create_fields intCoerce intCoerce (fun _ => none) (fun v => v)
          (fun s => s) { app := "acme", book_id := "b1", user_id := "u1" })
        "GroupID" =
      some (.vstr (FetchTasks.lookupD CreateTasks.APP_GROUP_LABELS "acme" "acme" ++ "_" ++
        "b1" ++ "_" ++ "u1")) ∧
      FetchTasks.lookupD CreateTasks.APP_GROUP_LABELS "acme" "acme" ++ "_" ++
        "b1" ++ "_" ++ "u1" = "acme_b1_u1") :=
  ⟨⟨C7_elapsed_and_group_id_derivation.1 intCoerce intCoerce (fun _ => none) (fun v => v)
      (fun s => s) { start_at := .vint 1000, end_at := .vint 4000 } 1000 4000
      rfl rfl rfl rfl rfl rfl rfl rfl (by decide),
    by decide⟩,
   ⟨C7_elapsed_and_group_id_derivation.2 intCoerce intCoerce (fun _ => none) (fun v => v)
      (fun s => s) { app := "acme", book_id := "b1", user_id := "u1" }
      rfl (by decide) (by decide) (by decide) (by decide) rfl rfl rfl
      rfl rfl rfl rfl rfl rfl rfl rfl rfl,
    by decide⟩⟩

namespace CreateTasks

theorem chunkedPos_eq_take_drop (n : Nat) (l : List α) (hn : 0 < n) (hl : l ≠ []) :
    chunkedPos n l = l.take n :: chunkedPos n (l.drop n) := by
  match l, hl with
  | x :: rest, _ =>
    rw [chunkedPos_cons]
    obtain ⟨n', rfl⟩ : ∃ n', n = n' + 1 := ⟨n - 1, by omega⟩
    simp [List.take_succ_cons, List.drop_succ_cons]

theorem chunkedPos_eq_single (n : Nat) (l : List α) (hn : 0 < n) (hl : l ≠ [])
    (hlen : l.length ≤ n) : chunkedPos n l = [l] := by
  match l, hl with
  | x :: rest, _ =>
    rw [chunkedPos_cons]
    have h1 : rest.take (n - 1) = rest := List.take_of_length_le (by simp at hlen; omega)
    have h2 : rest.drop (n - 1) = [] := List.drop_eq_nil_of_le (by simp at hlen; omega)
    rw [h1, h2, chunkedPos_nil]

theorem addItems_mem (fn : String) :
    ∀ (items : List RecordItem) (existing existing' : List (String × String)),
      addItems fn items existing = some existing' →
      ∀ p ∈ existing', p ∈ existing ∨
        ∃ it ∈ items, pyStrip it.record_id = p.2 ∧
          FetchTasks.bitable_value_to_string (pyGetD it.fields fn (.vstr "")) = some p.1 ∧
          p.1 ≠ "" ∧ p.2 ≠ "" := by
  intro items
  induction items with
  | nil =>
    intro existing existing' h p hp
    rw [addItems] at h
    cases h
    exact Or.inl hp
  | cons it rest ih =>
    intro existing existing' h p hp
    rw [addItems] at h
    revert h
    split
    · intro h; cases h
    · rename_i value hval
      intro h
      rcases ih _ _ h p hp with hmem | ⟨it', hit', hrest⟩
      · revert hmem
        split
        · rename_i hcond
          intro hmem
          rcases List.mem_append.mp hmem with hold | hnew
          · exact Or.inl hold
          · simp at hnew
            subst hnew
            exact Or.inr ⟨it, List.mem_cons_self _ _, rfl, hval, hcond.2.1, hcond.1⟩
        · intro hmem
          exact Or.inl hmem
      · exact Or.inr ⟨it', List.mem_cons_of_mem _ hit', hrest⟩

end CreateTasks

namespace CreateTasks

/-- Provenance invariant of the chunk loop: every entry of the final
mapping traces to a row of one of the issued calls. -/
theorem resolveGo_mem (store : Nat → List RecordItem) (fn : String) :
    ∀ (batches : List (List String)) (calls : Nat)
      (existing m : List (String × String)) (log log' : List FetchTasks.Filter),
      resolveGo store fn batches calls existing log = some (m, log') →
      calls = log.length →
      (∀ p ∈ existing, ∃ i, i < calls ∧ ∃ it ∈ store i,
        pyStrip it.record_id = p.2 ∧
        FetchTasks.bitable_value_to_string (pyGetD it.fields fn (.vstr "")) = some p.1 ∧
        p.1 ≠ "" ∧ p.2 ≠ "") →
      ∀ p ∈ m, ∃ i, i < log'.length ∧ ∃ it ∈ store i,
        pyStrip it.record_id = p.2 ∧
        FetchTasks.bitable_value_to_string (pyGetD it.fields fn (.vstr "")) = some p.1 ∧
        p.1 ≠ "" ∧ p.2 ≠ "" := by
  intro batches
  induction batches with
  | nil =>
    intro calls existing m log log' h hcalls hprior p hp
    rw [resolveGo] at h
    cases h
    subst hcalls
    exact hprior p hp
  | cons batch rest ih =>
    intro calls existing m log log' h hcalls hprior p hp
    rw [resolveGo] at h
    revert h
    split
    · intro h
      exact ih calls existing m log log' h hcalls hprior p hp
    · rename_i fo hfo
      split
      · intro h; cases h
      · rename_i existing2 hadd
        intro h
        refine ih (calls + 1) existing2 m (log ++ [fo]) log' h (by simp [hcalls]) ?_ p hp
        intro q hq
        rcases addItems_mem fn (store calls) existing existing2 hadd q hq with hold | ⟨it, hit, h1, h2, h3, h4⟩
        · obtain ⟨i, hi, hrow⟩ := hprior q hold
          exact ⟨i, by omega, hrow⟩
        · exact ⟨calls, by omega, it, hit, h1, h2, h3, h4⟩

end CreateTasks

namespace CreateTasks

/-- First-entry preference on optional record ids: an already-recorded id
wins over any later candidate. -/
def firstOr (a b : Option String) : Option String :=
  match a with
  | some r => some r
  | none => b

/-- The record id of the first row of a single response whose stripped
record id is non-empty and whose cell normalizes to `v` (`some none` when
no row qualifies; outer `none` when a cell normalization raises first). -/
def firstHit (fn v : String) : List RecordItem → Option (Option String)
  | [] => some none
  | it :: rest =>
    match FetchTasks.bitable_value_to_string (pyGetD it.fields fn (.vstr "")) with
    | none => none
    | some value =>
      if pyStrip it.record_id ≠ "" ∧ value = v then some (some (pyStrip it.record_id))
      else firstHit fn v rest

/-- `firstHit` streamed over `k` consecutive calls of the store starting at
call index `i`: the first qualifying row across the whole processed row
sequence, in call order. -/
def firstHitSeq (store : Nat → List RecordItem) (fn v : String) : Nat → Nat → Option (Option String)
  | _, 0 => some none
  | i, k + 1 =>
    match firstHit fn v (store i) with
    | none => none
    | some (some r) => some (some r)
    | some none => firstHitSeq store fn v (i + 1) k

theorem firstOr_none (a : Option String) : firstOr a none = a := by
  cases a <;> rfl

theorem lookupS_append (m : List (String × String)) (k v rid : String) :
    lookupS (m ++ [(k, rid)]) v =
      firstOr (lookupS m v) (if k = v then some rid else none) := by
  induction m with
  | nil => by_cases h : k = v <;> simp [lookupS, firstOr, h]
  | cons p rest ih =>
    obtain ⟨k0, v0⟩ := p
    by_cases h : k0 = v <;> simp [lookupS, h, ih, firstOr]

/-- The per-call accumulation realizes first-seen-wins: after a successful
`addItems` pass, the binding of every non-empty value `v` is its previous
binding if it had one, and otherwise the first qualifying row of this
response (absent if none qualifies). -/
theorem addItems_lookupS (fn : String) :
    ∀ (items : List RecordItem) (existing existing' : List (String × String)),
      addItems fn items existing = some existing' →
      ∀ v, v ≠ "" →
      ∃ w, firstHit fn v items = some w ∧
        lookupS existing' v = firstOr (lookupS existing v) w := by
  intro items
  induction items with
  | nil =>
    intro existing existing' h v hv
    rw [addItems] at h
    cases h
    exact ⟨none, by rw [firstHit], (firstOr_none _).symm⟩
  | cons it rest ih =>
    intro existing existing' h v hv
    rw [addItems] at h
    revert h
    split
    · intro h; cases h
    · rename_i value hval
      intro h
      have hfh : firstHit fn v (it :: rest) =
          (if pyStrip it.record_id ≠ "" ∧ value = v
           then some (some (pyStrip it.record_id))
           else firstHit fn v rest) := by
        rw [firstHit, hval]
      by_cases hcv : pyStrip it.record_id ≠ "" ∧ value = v
      · obtain ⟨hrid, hveq⟩ := hcv
        subst hveq
        rcases hex : lookupS existing value with _ | r0
        · rw [if_pos ⟨hrid, hv, hex⟩] at h
          obtain ⟨w', hw', hlk⟩ := ih _ _ h value hv
          refine ⟨some (pyStrip it.record_id), ?_, ?_⟩
          · rw [hfh, if_pos ⟨hrid, rfl⟩]
          · rw [hlk, lookupS_append, hex]
            simp [firstOr]
        · rw [if_neg (by simp [hex])] at h
          obtain ⟨w', hw', hlk⟩ := ih _ _ h value hv
          refine ⟨some (pyStrip it.record_id), ?_, ?_⟩
          · rw [hfh, if_pos ⟨hrid, rfl⟩]
          · rw [hlk, hex]
            simp [firstOr]
      · have hfh2 : firstHit fn v (it :: rest) = firstHit fn v rest := by
          rw [hfh, if_neg hcv]
        by_cases hcond : pyStrip it.record_id ≠ "" ∧ value ≠ "" ∧ lookupS existing value = none
        · rw [if_pos hcond] at h
          obtain ⟨w', hw', hlk⟩ := ih _ _ h v hv
          refine ⟨w', by rw [hfh2]; exact hw', ?_⟩
          have hne : value ≠ v := fun hh => hcv ⟨hcond.1, hh⟩
          rw [hlk, lookupS_append, if_neg hne, firstOr_none]
        · rw [if_neg hcond] at h
          obtain ⟨w', hw', hlk⟩ := ih _ _ h v hv
          exact ⟨w', by rw [hfh2]; exact hw', hlk⟩

/-- The chunk loop issues exactly one search per chunk with a non-`none`
filter, in chunk order: the final log is the initial log followed by the
chunkwise `build_id_filter` results with the `none`s dropped. -/
theorem resolveGo_log (store : Nat → List RecordItem) (fn : String) :
    ∀ (batches : List (List String)) (calls : Nat)
      (existing m : List (String × String)) (log log' : List FetchTasks.Filter),
      resolveGo store fn batches calls existing log = some (m, log') →
      log' = log ++ batches.filterMap (fun b => build_id_filter fn b) := by
  intro batches
  induction batches with
  | nil =>
    intro calls existing m log log' h
    rw [resolveGo] at h
    cases h
    simp
  | cons batch rest ih =>
    intro calls existing m log log' h
    rw [resolveGo] at h
    revert h
    split
    · rename_i hfo
      intro h
      rw [ih _ _ _ _ _ h]
      simp [List.filterMap_cons, hfo]
    · rename_i fo hfo
      split
      · intro h; cases h
      · rename_i existing2 hadd
        intro h
        rw [ih _ _ _ _ _ h]
        simp [List.filterMap_cons, hfo]

/-- First-seen-wins across the whole chunk loop: the final binding of every
non-empty value is its incoming binding if present, and otherwise the
first qualifying row across the issued calls in order. -/
theorem resolveGo_firstSeen (store : Nat → List RecordItem) (fn : String) :
    ∀ (batches : List (List String)) (calls : Nat)
      (existing m : List (String × String)) (log log' : List FetchTasks.Filter),
      resolveGo store fn batches calls existing log = some (m, log') →
      ∀ v, v ≠ "" →
      ∃ w, firstHitSeq store fn v calls
          (batches.filterMap (fun b => build_id_filter fn b)).length = some w ∧
        lookupS m v = firstOr (lookupS existing v) w := by
  intro batches
  induction batches with
  | nil =>
    intro calls existing m log log' h v hv
    rw [resolveGo] at h
    cases h
    refine ⟨none, ?_, (firstOr_none _).symm⟩
    simp [firstHitSeq]
  | cons batch rest ih =>
    intro calls existing m log log' h v hv
    rw [resolveGo] at h
    revert h
    split
    · rename_i hfo
      intro h
      have := ih _ _ _ _ _ h v hv
      simpa [List.filterMap_cons, hfo] using this
    · rename_i fo hfo
      split
      · intro h; cases h
      · rename_i existing2 hadd
        intro h
        obtain ⟨w0, hw0, hlk0⟩ := addItems_lookupS fn (store calls) existing existing2 hadd v hv
        obtain ⟨w', hw', hlk'⟩ := ih _ _ _ _ _ h v hv
        have hlen : (List.filterMap (fun b => build_id_filter fn b) (batch :: rest)).length =
            (List.filterMap (fun b => build_id_filter fn b) rest).length + 1 := by
          simp [List.filterMap_cons, hfo]
        rw [hlen]
        cases hw0case : w0 with
        | some r =>
          rw [hw0case] at hw0 hlk0
          refine ⟨some r, ?_, ?_⟩
          · rw [firstHitSeq, hw0]
          · rw [hlk', hlk0]
            cases hex : lookupS existing v <;> simp [firstOr]
        | none =>
          rw [hw0case] at hw0 hlk0
          rw [firstOr_none] at hlk0
          refine ⟨w', ?_, ?_⟩
          · rw [firstHitSeq, hw0]
            exact hw'
          · rw [hlk', hlk0]

/-- Chunk discipline of `chunkedPos`: the chunks concatenate back to the
input, and every chunk is non-empty with at most `n` elements. -/
theorem chunkedPos_join_bounds (n : Nat) (hn : 0 < n) :
    ∀ (N : Nat) (l : List α), l.length ≤ N →
      (chunkedPos n l).flatten = l ∧
      ∀ c ∈ chunkedPos n l, c ≠ [] ∧ c.length ≤ n := by
  intro N
  induction N with
  | zero =>
    intro l hl
    have hnil : l = [] := List.eq_nil_of_length_eq_zero (by omega)
    subst hnil
    rw [chunkedPos_nil]
    exact ⟨rfl, by simp⟩
  | succ N ih =>
    intro l hl
    match l with
    | [] =>
      rw [chunkedPos_nil]
      exact ⟨rfl, by simp⟩
    | x :: rest =>
      rw [chunkedPos_cons]
      have hdrop : (rest.drop (n - 1)).length ≤ N := by
        rw [List.length_drop]
        simp at hl
        omega
      obtain ⟨hjoin, hbounds⟩ := ih (rest.drop (n - 1)) hdrop
      constructor
      · rw [List.flatten_cons, hjoin]
        simp [List.take_append_drop]
      · intro c hc
        rcases List.mem_cons.mp hc with rfl | hc2
        · refine ⟨by simp, ?_⟩
          rw [List.length_cons, List.length_take]
          omega
        · exact hbounds c hc2

/-- `chunked` at the fixed batch limit unfolds to `chunkedPos 50`. -/
theorem chunked_max_eq (values : List α) :
    chunked values MAX_FILTER_VALUES = chunkedPos 50 values := by
  rw [chunked, if_neg (by decide)]
  rfl

theorem buildIdConds_ne_nil (fn : String) :
    ∀ (chunk : List String) (seen : List String) (v : String),
      v ∈ chunk → pyStrip v ≠ "" → pyStrip v ∉ seen →
      buildIdConds fn chunk seen ≠ [] := by
  intro chunk
  induction chunk with
  | nil =>
    intro seen v hv
    simp at hv
  | cons x rest ih =>
    intro seen v hv hvb hvs
    rw [buildIdConds]
    split
    · rename_i hx
      rcases List.mem_cons.mp hv with rfl | hv2
      · rcases hx with hx1 | hx2
        · exact absurd hx1 hvb
        · exact absurd hx2 hvs
      · exact ih seen v hv2 hvb hvs
    · simp

/-- A chunk containing at least one non-blank value (under a non-blank
field name) always produces a filter, hence exactly one search. -/
theorem build_id_filter_isSome (fn : String) (chunk : List String)
    (hfn : pyStrip fn ≠ "") (v : String) (hv : v ∈ chunk) (hvb : pyStrip v ≠ "") :
    (build_id_filter fn chunk).isSome := by
  unfold build_id_filter
  simp only []
  rw [if_neg hfn]
  have hne := buildIdConds_ne_nil (pyStrip fn) chunk [] v hv hvb (by simp)
  have hie : (buildIdConds (pyStrip fn) chunk []).isEmpty = false := by
    cases hcs : buildIdConds (pyStrip fn) chunk []
    · exact absurd hcs hne
    · rfl
  rw [hie]
  rfl

theorem length_filterMap_of_isSome (f : α → Option β) :
    ∀ (l : List α), (∀ x ∈ l, (f x).isSome) → (l.filterMap f).length = l.length := by
  intro l
  induction l with
  | nil => simp
  | cons x rest ih =>
    intro h
    rcases Option.isSome_iff_exists.mp (h x (by simp)) with ⟨b, hb⟩
    rw [List.filterMap_cons, hb]
    simp only [List.length_cons]
    rw [ih (fun y hy => h y (by simp [hy]))]

end CreateTasks

/-- 120 distinct non-blank candidate values (spec §8's resolver example). -/
def values120 : List String := (List.range 120).map (fun i => "v" ++ toString i)

/-- A store whose single page returns two rows carrying the same cell value
`"a"` under different record ids. -/
def storeDup : Nat → List CreateTasks.RecordItem := fun i =>
  if i = 0 then [⟨"r1", [("F", .vstr "a")]⟩, ⟨"r2", [("F", .vstr "a")]⟩] else []

/-- C8: (1) every entry of the mapping returned by the existing-record
resolver traces to a row of one of the issued lookup calls (values
unresolved by every call are absent, and only normalized non-empty
values with non-empty record ids are recorded); (2) 120 distinct non-blank
values are split into exactly 3 lookup calls carrying 50/50/20 OR-filter
conditions, and a store returning no rows resolves none of them;
(3) when two rows carry the same value, the first record id seen wins and
the later duplicate is ignored; (4) for every candidate list, chunking at
the fixed batch limit covers the whole list with non-empty chunks of at
most 50 values each; (5) for every store, field name and candidate list,
the issued searches are exactly the chunkwise filters that are not `none`,
in chunk order; (6) under a non-blank field name and non-blank values,
exactly one search is issued per chunk; (7) for every store, field name,
candidate list and non-empty value, the returned binding of that value is
exactly the first row with a non-empty record id carrying it across the
issued calls in order — later duplicates are ignored, and values no row
carries are absent. -/
theorem C8_resolver_chunks_and_first_seen :
    (∀ (store : Nat → List CreateTasks.RecordItem) (fn : String) (values : List String)
        (m : List (String × String)) (log : List FetchTasks.Filter),
        CreateTasks.resolve_existing_by_field store fn values = some (m, log) →
        ∀ p ∈ m, ∃ i, i < log.length ∧ ∃ it ∈ store i,
          pyStrip it.record_id = p.2 ∧
          FetchTasks.bitable_value_to_string (pyGetD it.fields fn (.vstr "")) = some p.1 ∧
          p.1 ≠ "" ∧ p.2 ≠ "") ∧
    (CreateTasks.resolve_existing_by_field (fun _ => []) "F" values120).map
        (fun r => (r.1, r.2.map (fun f => f.conditions.length))) =
      some ([], [50, 50, 20]) ∧
    CreateTasks.resolve_existing_by_field storeDup "F" ["a"] =
      some ([("a", "r1")], [⟨"or", [⟨"F", "is", ["a"]⟩]⟩]) ∧
    (∀ (values : List String),
        (CreateTasks.chunked values CreateTasks.MAX_FILTER_VALUES).flatten = values ∧
        ∀ c ∈ CreateTasks.chunked values CreateTasks.MAX_FILTER_VALUES,
          c ≠ [] ∧ c.length ≤ 50) ∧
    (∀ (store : Nat → List CreateTasks.RecordItem) (fn : String) (values : List String)
        (m : List (String × String)) (log : List FetchTasks.Filter),
        CreateTasks.resolve_existing_by_field store fn values = some (m, log) →
        log = (CreateTasks.chunked values CreateTasks.MAX_FILTER_VALUES).filterMap
          (fun b => CreateTasks.build_id_filter fn b)) ∧
    (∀ (store : Nat → List CreateTasks.RecordItem) (fn : String) (values : List String)
        (m : List (String × String)) (log : List FetchTasks.Filter),
        pyStrip fn ≠ "" → (∀ v ∈ values, pyStrip v ≠ "") →
        CreateTasks.resolve_existing_by_field store fn values = some (m, log) →
        log.length = (CreateTasks.chunked values CreateTasks.MAX_FILTER_VALUES).length) ∧
    (∀ (store : Nat → List CreateTasks.RecordItem) (fn : String) (values : List String)
        (m : List (String × String)) (log : List FetchTasks.Filter),
        CreateTasks.resolve_existing_by_field store fn values = some (m, log) →
        ∀ v, v ≠ "" →
        ∃ w, CreateTasks.firstHitSeq store fn v 0 log.length = some w ∧
          CreateTasks.lookupS m v = w) := by
  refine ⟨?_, ?_, ?_, ?_, ?_, ?_, ?_⟩
  · intro store fn values m log h p hp
    unfold CreateTasks.resolve_existing_by_field at h
    revert h
    split
    · intro h
      cases h
      simp at hp
    · intro h
      exact CreateTasks.resolveGo_mem store fn _ 0 [] m [] log h rfl
        (by intro q hq; simp at hq) p hp
  · have hchunks : CreateTasks.chunked values120 CreateTasks.MAX_FILTER_VALUES =
        [values120.take 50, (values120.drop 50).take 50, (values120.drop 50).drop 50] := by
      rw [CreateTasks.chunked, if_neg (by decide)]
      show CreateTasks.chunkedPos 50 values120 = _
      rw [CreateTasks.chunkedPos_eq_take_drop 50 values120 (by norm_num) (by decide)]
      rw [CreateTasks.chunkedPos_eq_take_drop 50 (values120.drop 50) (by norm_num) (by decide)]
      rw [CreateTasks.chunkedPos_eq_single 50 ((values120.drop 50).drop 50) (by norm_num)
        (by decide) (by decide)]
    unfold CreateTasks.resolve_existing_by_field
    rw [if_neg (by decide), hchunks]
    decide
  · have hch : CreateTasks.chunked ["a"] CreateTasks.MAX_FILTER_VALUES = [["a"]] := by
      rw [CreateTasks.chunked, if_neg (by decide)]
      exact CreateTasks.chunkedPos_eq_single 50 ["a"] (by norm_num) (by decide) (by decide)
    unfold CreateTasks.resolve_existing_by_field
    rw [if_neg (by decide), hch]
    rw [CreateTasks.resolveGo]
    have hbf : CreateTasks.build_id_filter "F" ["a"] = some ⟨"or", [⟨"F", "is", ["a"]⟩]⟩ := by
      decide
    rw [hbf]
    have hadd : CreateTasks.addItems "F" (storeDup 0) [] = some [("a", "r1")] := by
      simp only [CreateTasks.addItems, storeDup, pyGetD, if_true, ite_true,
        FetchTasks.bitable_value_to_string, norm_vstr]
      decide
    simp only [hadd]
    rw [CreateTasks.resolveGo]
    simp
  · intro values
    rw [CreateTasks.chunked_max_eq]
    exact CreateTasks.chunkedPos_join_bounds 50 (by norm_num) values.length values le_rfl
  · intro store fn values m log h
    unfold CreateTasks.resolve_existing_by_field at h
    revert h
    split
    · rename_i hemp
      intro h
      cases h
      have hv : values = [] := by simpa using hemp
      subst hv
      rw [CreateTasks.chunked_max_eq, CreateTasks.chunkedPos_nil]
      simp
    · intro h
      simpa using CreateTasks.resolveGo_log store fn _ 0 [] m [] log h
  · intro store fn values m log hfn hvals h
    unfold CreateTasks.resolve_existing_by_field at h
    revert h
    split
    · rename_i hemp
      intro h
      cases h
      have hv : values = [] := by simpa using hemp
      subst hv
      rw [CreateTasks.chunked_max_eq, CreateTasks.chunkedPos_nil]
      simp
    · intro h
      have hlog := CreateTasks.resolveGo_log store fn _ 0 [] m [] log h
      simp only [List.nil_append] at hlog
      rw [hlog]
      obtain ⟨hjoin, hbounds⟩ :=
        CreateTasks.chunkedPos_join_bounds 50 (by norm_num) values.length values le_rfl
      rw [← CreateTasks.chunked_max_eq] at hjoin hbounds
      refine CreateTasks.length_filterMap_of_isSome _ _ ?_
      intro c hc
      obtain ⟨hcne, hclen⟩ := hbounds c hc
      obtain ⟨v0, hv0⟩ : ∃ v0, v0 ∈ c := by
        cases c with
        | nil => exact absurd rfl hcne
        | cons y ys => exact ⟨y, by simp⟩
      have hv0v : v0 ∈ values := by
        rw [← hjoin]
        exact List.mem_flatten.mpr ⟨c, hc, hv0⟩
      exact CreateTasks.build_id_filter_isSome fn c hfn v0 hv0 (hvals v0 hv0v)
  · intro store fn values m log h v hv
    unfold CreateTasks.resolve_existing_by_field at h
    revert h
    split
    · intro h
      cases h
      refine ⟨none, ?_, rfl⟩
      rw [show ([] : List FetchTasks.Filter).length = 0 from rfl, CreateTasks.firstHitSeq]
    · intro h
      have hlog := CreateTasks.resolveGo_log store fn _ 0 [] m [] log h
      simp only [List.nil_append] at hlog
      obtain ⟨w, hw, hlk⟩ := CreateTasks.resolveGo_firstSeen store fn _ 0 [] m [] log h v hv
      refine ⟨w, ?_, ?_⟩
      · rw [hlog]
        exact hw
      · rw [hlk]
        rfl

theorem joinRichParts_cons_other (v : Value) (rest : List Value)
    (h : ∀ o, v ≠ .vobj o) :
    joinRichParts (v :: rest) =
      match normalize_bitable_value v with
      | none => none
      | some t => (joinRichParts rest).map (fun ps => if t ≠ "" then t :: ps else ps) := by
  cases v <;> first
    | exact absurd rfl (h _)
    | simp [joinRichParts]

mutual

/-- Does every `vbytes` nested anywhere in the value decode as UTF-8?
This is the exact side condition under which the normalizer cannot raise
(the bytes branch, fetch_tasks.py line 261, is its only raising path). -/
def validUtf8 : Value → Bool
  | .vnull => true
  | .vbool _ => true
  | .vint _ => true
  | .vfloat _ _ => true
  | .vstr _ => true
  | .vother _ => true
  | .vbytes bs => (utf8Decode bs).isSome
  | .vlist items => validUtf8List items
  | .vobj o => validUtf8Obj o
termination_by v => sizeOf v

def validUtf8List : List Value → Bool
  | [] => true
  | v :: rest => validUtf8 v && validUtf8List rest
termination_by l => sizeOf l

def validUtf8Obj : List (String × Value) → Bool
  | [] => true
  | (_, v) :: rest => validUtf8 v && validUtf8Obj rest
termination_by o => sizeOf o

end

theorem validUtf8_pyGetD (o : List (String × Value)) (k : String)
    (h : validUtf8Obj o = true) : validUtf8 (pyGetD o k .vnull) = true := by
  induction o with
  | nil =>
    rw [pyGetD, validUtf8]
  | cons p rest ih =>
    obtain ⟨k', v⟩ := p
    rw [validUtf8Obj] at h
    rw [Bool.and_eq_true] at h
    rw [pyGetD]
    split
    · exact h.1
    · exact ih h.2

theorem pyGetD_sizeOf_lt (o : List (String × Value)) (k : String) (h : o ≠ []) :
    sizeOf (pyGetD o k .vnull) < sizeOf o := by
  match o, h with
  | (k', v) :: rest, _ =>
    rw [pyGetD]
    split
    · simp
      omega
    · have hle := pyGetD_sizeOf_le rest k
      simp
      omega

theorem orElseNE_isSome (a : Option String) (b : Unit → Option String)
    (ha : a.isSome) (hb : (b ()).isSome) : (orElseNE a b).isSome := by
  match a, ha with
  | some s, _ =>
    rw [orElseNE]
    split
    · exact hb
    · rfl

theorem joinRichParts_cons_isSome (v : Value) (rest : List Value)
    (hv : (normalize_bitable_value v).isSome)
    (hrest : (joinRichParts rest).isSome)
    (hobj : ∀ o, v = .vobj o →
      (normalize_bitable_value (pyGetD o "value" .vnull)).isSome) :
    (joinRichParts (v :: rest)).isSome := by
  rcases Option.isSome_iff_exists.mp hrest with ⟨ps, hps⟩
  cases v
  case vobj o =>
    rw [joinRichParts_cons_obj]
    rcases Option.isSome_iff_exists.mp (hobj o rfl) with ⟨nested, hn⟩
    split
    · split
      · rw [hps]; rfl
      · rw [hn, hps]; rfl
    · rw [hn, hps]; rfl
  all_goals
    rw [joinRichParts_cons_other _ _ (fun o h => by cases h)]
  all_goals
    rcases Option.isSome_iff_exists.mp hv with ⟨t, ht⟩
  all_goals
    rw [ht, hps]; rfl

/-- Totality of the normalizer family on values whose nested bytes are all
valid UTF-8: strong induction on the size of the value. -/
theorem normalize_total_aux : ∀ n : Nat,
    (∀ v : Value, sizeOf v ≤ n → validUtf8 v = true →
      (normalize_bitable_value v).isSome) ∧
    (∀ l : List Value, sizeOf l ≤ n → validUtf8List l = true →
      (normalizeEach l).isSome ∧ (joinRichParts l).isSome ∧
      (join_rich_text l).isSome ∧ (normalize_bitable_array l).isSome) ∧
    (∀ o : List (String × Value), sizeOf o ≤ n → validUtf8Obj o = true →
      (normalize_bitable_object o).isSome) := by
  intro n
  induction n using Nat.strong_induction_on with
  | _ n ih =>
    refine ⟨?_, ?_, ?_⟩
    · intro v hs hv
      match v with
      | .vnull => rw [norm_vnull]; rfl
      | .vstr s => rw [norm_vstr]; rfl
      | .vbool b => rw [norm_vbool]; rfl
      | .vint m => rw [norm_vint]; rfl
      | .vfloat m e => rw [norm_vfloat]; rfl
      | .vother r => rw [norm_vother]; rfl
      | .vbytes bs =>
        rw [norm_vbytes, utf8DecodeStr]
        rw [validUtf8] at hv
        rcases Option.isSome_iff_exists.mp hv with ⟨cs, hcs⟩
        rw [hcs]
        rfl
      | .vlist items =>
        rw [norm_vlist]
        rw [validUtf8] at hv
        have hlt : sizeOf items < n := by
          have hspec : sizeOf (Value.vlist items) = 1 + sizeOf items := by simp
          omega
        exact ((ih _ hlt).2.1 items le_rfl hv).2.2.2
      | .vobj o =>
        rw [norm_vobj]
        rw [validUtf8] at hv
        have hlt : sizeOf o < n := by
          have hspec : sizeOf (Value.vobj o) = 1 + sizeOf o := by simp
          omega
        exact (ih _ hlt).2.2 o le_rfl hv
    · intro l hs hl
      match l with
      | [] =>
        refine ⟨?_, ?_, ?_, ?_⟩
        · rw [normalizeEach_nil]; rfl
        · rw [joinRichParts_nil]; rfl
        · rw [join_rich_text_eq, joinRichParts_nil]; rfl
        · rw [norm_array_eq]; rfl
      | v :: rest =>
        rw [validUtf8List, Bool.and_eq_true] at hl
        obtain ⟨hv, hrest⟩ := hl
        have hspec : sizeOf (v :: rest) = 1 + sizeOf v + sizeOf rest := by simp
        have hltv : sizeOf v < n := by omega
        have hltr : sizeOf rest < n := by omega
        have ihv := (ih _ hltv).1 v le_rfl hv
        obtain ⟨ihrE, ihrP, ihrT, ihrA⟩ := (ih _ hltr).2.1 rest le_rfl hrest
        have hne : (normalizeEach (v :: rest)).isSome := by
          rw [normalizeEach_cons]
          rcases Option.isSome_iff_exists.mp ihv with ⟨s, hsv⟩
          rcases Option.isSome_iff_exists.mp ihrE with ⟨ss, hss⟩
          rw [hsv, hss]
          rfl
        have hjp : (joinRichParts (v :: rest)).isSome := by
          apply joinRichParts_cons_isSome v rest ihv ihrP
          intro o hvo
          subst hvo
          rw [validUtf8] at hv
          have hb : sizeOf (pyGetD o "value" .vnull) ≤ sizeOf o := pyGetD_sizeOf_le o _
          have hlt2 : sizeOf (pyGetD o "value" .vnull) < n := by
            have hso : sizeOf (Value.vobj o) = 1 + sizeOf o := by simp
            omega
          exact (ih _ hlt2).1 _ le_rfl (validUtf8_pyGetD o "value" hv)
        have hjt : (join_rich_text (v :: rest)).isSome := by
          rw [join_rich_text_eq]
          rcases Option.isSome_iff_exists.mp hjp with ⟨ps, hps⟩
          rw [hps]
          rfl
        refine ⟨hne, hjp, hjt, ?_⟩
        rw [norm_array_eq]
        rw [if_neg (by simp)]
        split
        · exact hjt
        · rcases Option.isSome_iff_exists.mp hne with ⟨parts, hparts⟩
          rw [hparts]
          rfl
    · intro o hs ho
      rw [norm_object_eq]
      split
      · rfl
      · rename_i hnemp
        have honil : o ≠ [] := by
          intro hnil
          exact hnemp (by simp [hnil])
        have hkey : ∀ k, (normalize_bitable_value (pyGetD o k .vnull)).isSome := by
          intro k
          have hlt : sizeOf (pyGetD o k .vnull) < n := by
            have h1 := pyGetD_sizeOf_lt o k honil
            omega
          exact (ih _ hlt).1 _ le_rfl (validUtf8_pyGetD o k ho)
        refine orElseNE_isSome _ _ (by split; exacts [hkey "value", rfl]) ?_
        refine orElseNE_isSome _ _ (by split; exacts [hkey "values", rfl]) ?_
        refine orElseNE_isSome _ _ (by split; exacts [hkey "elements", rfl]) ?_
        refine orElseNE_isSome _ _ (by split; exacts [hkey "content", rfl]) ?_
        refine orElseNE_isSome _ _ (by rfl) ?_
        refine orElseNE_isSome _ _ (hkey "link") ?_
        refine orElseNE_isSome _ _ (hkey "name") ?_
        refine orElseNE_isSome _ _ (hkey "en_name") ?_
        refine orElseNE_isSome _ _ (hkey "email") ?_
        refine orElseNE_isSome _ _ (hkey "id") ?_
        refine orElseNE_isSome _ _ (hkey "user_id") ?_
        refine orElseNE_isSome _ _ (hkey "url") ?_
        refine orElseNE_isSome _ _ (hkey "tmp_url") ?_
        refine orElseNE_isSome _ _ (hkey "file_token") ?_
        refine orElseNE_isSome _ _ ?_ (by rfl)
        split
        · rcases Option.isSome_iff_exists.mp (hkey "location") with ⟨p1, h1⟩
          rcases Option.isSome_iff_exists.mp (hkey "pname") with ⟨p2, h2⟩
          rcases Option.isSome_iff_exists.mp (hkey "cityname") with ⟨p3, h3⟩
          rcases Option.isSome_iff_exists.mp (hkey "adname") with ⟨p4, h4⟩
          rw [h1, h2, h3, h4]
          rfl
        · rfl

/-- Counterexample for C2 as stated: a bytes value that is not valid UTF-8
(the single byte `0xFF`) makes `value.decode("utf-8")` raise
`UnicodeDecodeError` (fetch_tasks.py line 261), which no handler catches —
the normalizer raises instead of returning a string. -/
theorem C2_counterexample_invalid_utf8_bytes_raise :
    normalize_bitable_value (.vbytes [255]) = none := by
  rw [norm_vbytes]
  rfl

/-- C2 (amended): for every input value of any supported shape whose nested
bytes values are all valid UTF-8, the value normalizer returns a string and
never raises.  (The original claim fails only on bytes that do not decode
as UTF-8, per the counterexample.) -/
theorem C2_normalizer_total_on_valid_utf8 (v : Value) (hv : validUtf8 v = true) :
    (normalize_bitable_value v).isSome :=
  (normalize_total_aux (sizeOf v)).1 v le_rfl hv

/-- Witness for C2: a user-object cell holding a rich-text entry and a
valid-UTF-8 bytes value normalizes successfully. -/
theorem C2_witness :
    (normalize_bitable_value
      (.vobj [("text", .vstr "hi"), ("b", .vbytes [104, 105])])).isSome :=
  C2_normalizer_total_on_valid_utf8 _ (by
    rw [validUtf8, validUtf8Obj, validUtf8Obj, validUtf8Obj, validUtf8, validUtf8]
    decide)

/-- Witness for C8: in the duplicate-value store run, the mapping entry
("a", "r1") traces to a row of the single issued call, and the binding of
"a" equals the first qualifying hit of the streamed row sequence. -/
theorem C8_witness :
    (∃ i, i < 1 ∧ ∃ it ∈ storeDup i, pyStrip it.record_id = "r1" ∧
      FetchTasks.bitable_value_to_string (pyGetD it.fields "F" (.vstr "")) = some "a" ∧
      ("a" : String) ≠ "" ∧ ("r1" : String) ≠ "") ∧
    (∃ w, CreateTasks.firstHitSeq storeDup "F" "a" 0 1 = some w ∧
      CreateTasks.lookupS [("a", "r1")] "a" = w) :=
  ⟨C8_resolver_chunks_and_first_seen.1 storeDup "F" ["a"] [("a", "r1")]
    [⟨"or", [⟨"F", "is", ["a"]⟩]⟩] C8_resolver_chunks_and_first_seen.2.2.1
    ("a", "r1") (by simp),
   C8_resolver_chunks_and_first_seen.2.2.2.2.2.2 storeDup "F" ["a"] [("a", "r1")]
    [⟨"or", [⟨"F", "is", ["a"]⟩]⟩] C8_resolver_chunks_and_first_seen.2.2.1
    "a" (by decide)⟩

namespace FetchTasks

theorem seqOption_spec (d : String) :
    ∀ (l : List (Option String)) (vs : List String),
      seqOption l = some vs →
      vs.length = l.length ∧ ∀ i, i < l.length → l.getD i none = some (vs.getD i d) := by
  intro l
  induction l with
  | nil =>
    intro vs h
    rw [seqOption] at h
    cases h
    exact ⟨rfl, by intro i hi; simp at hi⟩
  | cons o rest ih =>
    intro vs h
    cases o with
    | none =>
      rw [seqOption] at h
      exact Option.noConfusion h
    | some v =>
      rw [seqOption] at h
      rcases Option.map_eq_some'.mp h with ⟨vs', hvs', rfl⟩
      obtain ⟨hlen, hget⟩ := ih vs' hvs'
      refine ⟨by simp [hlen], ?_⟩
      intro i hi
      match i with
      | 0 => simp
      | i + 1 =>
        simp only [List.getD_cons_succ]
        exact hget i (by simpa using hi)

/-- Does the cell for logical field `k` normalize to a non-empty string? -/
def nonEmptyField (fields : List (String × Value)) (mapping : String → String)
    (k : String) : Prop :=
  ∃ s, field_string fields (mapping k) = some s ∧ s ≠ ""

end FetchTasks

/-- Counterexample for C3 as stated: a TaskID cell holding the string
`"inf"` parses with Python `float("inf")`, and `int(float("inf"))` raises
`OverflowError`, which `field_int` does not catch (it catches only
`ValueError`, fetch_tasks.py lines 353-356) — `decode_task` raises instead
of returning a Task or none. -/
theorem C3_counterexample_infinite_task_id_raises :
    FetchTasks.decode_task [("TaskID", .vstr "inf"), ("URL", .vstr "x")]
      (fun s => s) = none := by
  have hfi : FetchTasks.field_int [("TaskID", Value.vstr "inf"), ("URL", Value.vstr "x")]
      "TaskID" = none := by
    simp only [FetchTasks.field_int, FetchTasks.field_string,
      FetchTasks.bitable_value_to_string, pyGetD, if_true, ite_true, norm_vstr]
    decide
  unfold FetchTasks.decode_task
  rw [if_neg (by decide)]
  simp only []
  rw [hfi]
  rfl

/-- C3 (amended): for every raw fields map and complete mapping, whenever
`decode_task` does not raise (see the counterexample for the raising case),
it returns a Task exactly when the TaskID cell coerces to a non-zero
integer and at least one of params/item_id/book_id/url/user_id/user_name
normalizes to a non-empty string; in every other non-raising case it
returns none. -/
theorem C3_decode_iff_nonzero_id_and_payload
    (fields : List (String × Value)) (mapping : String → String)
    (h : FetchTasks.decode_task fields mapping ≠ none) :
    (∃ t, FetchTasks.decode_task fields mapping = some (some t)) ↔
      ((∃ m, FetchTasks.field_int fields (mapping "TaskID") = some m ∧ m ≠ 0) ∧
        (FetchTasks.nonEmptyField fields mapping "Params" ∨
         FetchTasks.nonEmptyField fields mapping "ItemID" ∨
         FetchTasks.nonEmptyField fields mapping "BookID" ∨
         FetchTasks.nonEmptyField fields mapping "URL" ∨
         FetchTasks.nonEmptyField fields mapping "UserID" ∨
         FetchTasks.nonEmptyField fields mapping "UserName")) := by
  by_cases hemp : fields.isEmpty = true
  · have hdec : FetchTasks.decode_task fields mapping = some none := by
      unfold FetchTasks.decode_task
      rw [if_pos hemp]
    have hfi : FetchTasks.field_int fields (mapping "TaskID") = some 0 := by
      simp [FetchTasks.field_int, FetchTasks.field_string, hemp]
    constructor
    · rintro ⟨t, ht⟩
      rw [hdec] at ht
      simp at ht
    · rintro ⟨⟨m, hm, hm0⟩, _⟩
      rw [hfi] at hm
      cases hm
      exact absurd rfl hm0
  · cases hfi : FetchTasks.field_int fields (mapping "TaskID") with
    | none =>
      exfalso
      apply h
      unfold FetchTasks.decode_task
      rw [if_neg hemp, hfi]
      rfl
    | some tid =>
      by_cases htid : tid = 0
      · subst htid
        have hdec : FetchTasks.decode_task fields mapping = some none := by
          unfold FetchTasks.decode_task
          rw [if_neg hemp, hfi]
          simp
        constructor
        · rintro ⟨t, ht⟩
          rw [hdec] at ht
          simp at ht
        · rintro ⟨⟨m, hm, hm0⟩, _⟩
          injection hm with hm'
          exact absurd hm'.symm hm0
      · cases hsq : FetchTasks.seqOption (FetchTasks.taskStringKeys.map
            (fun k => FetchTasks.field_string fields (mapping k))) with
        | none =>
          exfalso
          apply h
          unfold FetchTasks.decode_task
          rw [if_neg hemp, hfi]
          simp only [Option.some_bind]
          rw [if_neg htid, hsq]
          rfl
        | some vals =>
          obtain ⟨hlen, hget⟩ := FetchTasks.seqOption_spec "" _ vals hsq
          have hP : FetchTasks.field_string fields (mapping "Params") =
              some (vals.getD 4 "") := by
            have h4 := hget 4 (by simp [FetchTasks.taskStringKeys])
            simpa [FetchTasks.taskStringKeys] using h4
          have hI : FetchTasks.field_string fields (mapping "ItemID") =
              some (vals.getD 5 "") := by
            have h5 := hget 5 (by simp [FetchTasks.taskStringKeys])
            simpa [FetchTasks.taskStringKeys] using h5
          have hB : FetchTasks.field_string fields (mapping "BookID") =
              some (vals.getD 6 "") := by
            have h6 := hget 6 (by simp [FetchTasks.taskStringKeys])
            simpa [FetchTasks.taskStringKeys] using h6
          have hU : FetchTasks.field_string fields (mapping "URL") =
              some (vals.getD 7 "") := by
            have h7 := hget 7 (by simp [FetchTasks.taskStringKeys])
            simpa [FetchTasks.taskStringKeys] using h7
          have hUi : FetchTasks.field_string fields (mapping "UserID") =
              some (vals.getD 8 "") := by
            have h8 := hget 8 (by simp [FetchTasks.taskStringKeys])
            simpa [FetchTasks.taskStringKeys] using h8
          have hUn : FetchTasks.field_string fields (mapping "UserName") =
              some (vals.getD 9 "") := by
            have h9 := hget 9 (by simp [FetchTasks.taskStringKeys])
            simpa [FetchTasks.taskStringKeys] using h9
          constructor
          · rintro ⟨t, ht⟩
            refine ⟨⟨tid, rfl, htid⟩, ?_⟩
            unfold FetchTasks.decode_task at ht
            rw [if_neg hemp, hfi] at ht
            simp only [Option.some_bind] at ht
            rw [if_neg htid, hsq] at ht
            simp only [Option.some_bind] at ht
            split at ht
            · rename_i hcond
              rcases hcond with hc | hc | hc | hc | hc | hc
              · exact Or.inl ⟨_, hP, hc⟩
              · exact Or.inr (Or.inl ⟨_, hI, hc⟩)
              · exact Or.inr (Or.inr (Or.inl ⟨_, hB, hc⟩))
              · exact Or.inr (Or.inr (Or.inr (Or.inl ⟨_, hU, hc⟩)))
              · exact Or.inr (Or.inr (Or.inr (Or.inr (Or.inl ⟨_, hUi, hc⟩))))
              · exact Or.inr (Or.inr (Or.inr (Or.inr (Or.inr ⟨_, hUn, hc⟩))))
            · simp at ht
          · rintro ⟨⟨m, hm, hm0⟩, hpay⟩
            unfold FetchTasks.decode_task
            rw [if_neg hemp, hfi]
            simp only [Option.some_bind]
            rw [if_neg htid, hsq]
            simp only [Option.some_bind]
            have hcond : vals.getD 4 "" ≠ "" ∨ vals.getD 5 "" ≠ "" ∨
                vals.getD 6 "" ≠ "" ∨ vals.getD 7 "" ≠ "" ∨
                vals.getD 8 "" ≠ "" ∨ vals.getD 9 "" ≠ "" := by
              rcases hpay with ⟨s, hs, hne⟩ | ⟨s, hs, hne⟩ | ⟨s, hs, hne⟩ |
                ⟨s, hs, hne⟩ | ⟨s, hs, hne⟩ | ⟨s, hs, hne⟩
              · rw [hP] at hs; cases hs; exact Or.inl hne
              · rw [hI] at hs; cases hs; exact Or.inr (Or.inl hne)
              · rw [hB] at hs; cases hs; exact Or.inr (Or.inr (Or.inl hne))
              · rw [hU] at hs; cases hs
                exact Or.inr (Or.inr (Or.inr (Or.inl hne)))
              · rw [hUi] at hs; cases hs
                exact Or.inr (Or.inr (Or.inr (Or.inr (Or.inl hne))))
              · rw [hUn] at hs; cases hs
                exact Or.inr (Or.inr (Or.inr (Or.inr (Or.inr hne))))
            rw [if_pos hcond]
            exact ⟨_, rfl⟩

/-- Witness for C3: a row with TaskID "7" and only a URL cell decodes to a
Task. -/
theorem C3_witness :
    ∃ t, FetchTasks.decode_task [("TaskID", .vstr "7"), ("URL", .vstr "x")]
      (fun s => s) = some (some t) := by
  have hfi7 : FetchTasks.field_int [("TaskID", Value.vstr "7"), ("URL", Value.vstr "x")]
      "TaskID" = some 7 := by
    simp only [FetchTasks.field_int, FetchTasks.field_string,
      FetchTasks.bitable_value_to_string, pyGetD, if_true, ite_true, norm_vstr]
    decide
  have hU7 : FetchTasks.field_string [("TaskID", Value.vstr "7"), ("URL", Value.vstr "x")]
      "URL" = some "x" := by
    simp [FetchTasks.field_string, FetchTasks.bitable_value_to_string, pyGetD,
      norm_vstr]
    decide
  have hsq : FetchTasks.seqOption (FetchTasks.taskStringKeys.map
      (fun k => FetchTasks.field_string
        [("TaskID", Value.vstr "7"), ("URL", Value.vstr "x")] ((fun s => s) k))) =
      some ["", "", "", "", "", "", "", "x", "", "", "", "",
            "", "", "", "", "", "", "", "", "", "", "", ""] := by
    simp [FetchTasks.taskStringKeys, FetchTasks.field_string,
      FetchTasks.bitable_value_to_string, pyGetD, norm_vstr, norm_vnull,
      FetchTasks.seqOption]
    decide
  have hne : FetchTasks.decode_task [("TaskID", .vstr "7"), ("URL", .vstr "x")]
      (fun s => s) ≠ none := by
    unfold FetchTasks.decode_task
    rw [if_neg (by decide)]
    simp only []
    rw [hfi7]
    simp only [Option.some_bind]
    rw [if_neg (by decide : ¬(7 : Int) = 0), hsq]
    simp only [Option.some_bind]
    split <;> simp
  exact (C3_decode_iff_nonzero_id_and_payload _ _ hne).mpr
    ⟨⟨7, hfi7, by decide⟩,
     Or.inr (Or.inr (Or.inr (Or.inl ⟨"x", hU7, by decide⟩)))⟩
